import Mathlib

/-!
Verification of the DebatES dataset merge-and-aggregate pipeline.

The Python sources are shallowly embedded:
* `src/compile_xml.py` — temporal assignment engine (`assign_block`,
  `assign_topic`, `assign_entities`, `assign_proposals`,
  `assign_fact_checking`) and the mention dedup/sort fragment of
  `generate_xml`.  Timestamps (Python floats holding seconds) are modelled
  as rationals `ℚ`: every timestamp the pipeline produces is a decimal
  number and float comparison on them coincides with rational comparison.
* `src/classify_emotions.py` — the emotion merge-back (`generate_emotions`),
  over a generic element-tree type mirroring `xml.etree.ElementTree`.
* `src/generate_html_reports.py` — the aggregation engine
  (`process_intervention`, `process_block`, `process_xml`, `main`),
  restricted to the fields the verified claims are about (intervention
  counts, claim/proposal/fallacy counts, the deduplicated text→origin
  maps, party participant sets, per-debate records).  Python `dict`s are
  modelled as association lists with in-place overwrite, Python `set`s as
  duplicate-free lists.
-/

namespace DebatES

/-! ### Temporal assignment engine (`compile_xml.py`, lines 177–205) -/

/-- `assign_block` from `compile_xml.py`: scan consecutive pairs of the
blocks list, returning the first label whose half-open interval
`[start_i, start_{i+1})` contains `time`; fall back to the last label, or
`None` for an empty list. -/
def assign_block (time : ℚ) : List (String × ℚ) → Option String
  | [] => none
  | [b] => some b.1
  | b :: b' :: rest =>
    if b.2 ≤ time ∧ time < b'.2 then some b.1 else assign_block time (b' :: rest)

/-- `assign_topic` from `compile_xml.py`: textually the same algorithm as
`assign_block`, applied to the topics list. -/
def assign_topic (time : ℚ) : List (String × ℚ) → Option String
  | [] => none
  | [b] => some b.1
  | b :: b' :: rest =>
    if b.2 ≤ time ∧ time < b'.2 then some b.1 else assign_topic time (b' :: rest)

/-- `assign_entities` from `compile_xml.py`: return the entity list of the
first entry whose recorded time equals `time` exactly, else `[]`. -/
def assign_entities (time : ℚ) : List (ℚ × List (String × String)) → List (String × String)
  | [] => []
  | (et, el) :: rest => if et = time then el else assign_entities time rest

/-- `assign_proposals` from `compile_xml.py`: return the payload of the
first entry whose recorded time equals `time` exactly, else `None`. -/
def assign_proposals (time : ℚ) : List (ℚ × List String) → Option (List String)
  | [] => none
  | (ft, datos) :: rest => if ft = time then some datos else assign_proposals time rest

/-- `assign_fact_checking` from `compile_xml.py`: identical scan over the
fact-checking list. -/
def assign_fact_checking (time : ℚ) : List (ℚ × List String) → Option (List String)
  | [] => none
  | (ft, datos) :: rest => if ft = time then some datos else assign_fact_checking time rest

/-- The example blocks list used throughout the specification. -/
def exampleBlocks : List (String × ℚ) := [("Economy", 0), ("Health", 120)]

lemma assign_topic_eq_assign_block (t : ℚ) :
    ∀ l : List (String × ℚ), assign_topic t l = assign_block t l
  | [] => rfl
  | [_] => rfl
  | b :: b' :: rest => by
    rw [assign_topic, assign_block]
    split
    · rfl
    · exact assign_topic_eq_assign_block t (b' :: rest)

lemma filter_eq_nil_of_sorted_lt {t : ℚ} :
    ∀ {l : List (String × ℚ)}, l.Pairwise (fun a b => a.2 ≤ b.2) →
      (∀ hd ∈ l.head?, t < hd.2) →
      l.filter (fun b => decide (b.2 ≤ t)) = []
  | [], _, _ => rfl
  | b :: rest, hs, hh => by
    have hbt : t < b.2 := hh b rfl
    have hrest : ∀ hd ∈ rest.head?, t < hd.2 := by
      intro hd hhd
      have : b.2 ≤ hd.2 := (List.pairwise_cons.mp hs).1 hd (List.mem_of_mem_head? hhd)
      exact lt_of_lt_of_le hbt this
    have ih := filter_eq_nil_of_sorted_lt (List.pairwise_cons.mp hs).2 hrest
    simp only [List.filter_cons, ih]
    have : ¬ b.2 ≤ t := not_le.mpr hbt
    simp [this]

/-- Main interval lemma: on a non-empty ascending blocks list, for a query
time at or after the first start, `assign_block` returns the label of the
entry with the greatest index whose start is `≤ t` (the last element of the
filtered list). -/
lemma assign_block_eq_getLast :
    ∀ (l : List (String × ℚ)) (t : ℚ), l ≠ [] →
      l.Pairwise (fun a b => a.2 ≤ b.2) →
      (∀ hd ∈ l.head?, hd.2 ≤ t) →
      assign_block t l = ((l.filter (fun b => decide (b.2 ≤ t))).getLast?).map Prod.fst
  | [], _, hne, _, _ => absurd rfl hne
  | [b], t, _, _, hh => by
    have hb : b.2 ≤ t := hh b rfl
    simp [assign_block, List.filter, hb]
  | b :: b' :: rest, t, _, hs, hh => by
    have hb : b.2 ≤ t := hh b rfl
    rw [assign_block]
    by_cases hcase : b.2 ≤ t ∧ t < b'.2
    · rw [if_pos hcase]
      have htail : (b' :: rest).Pairwise (fun a b => a.2 ≤ b.2) :=
        (List.pairwise_cons.mp hs).2
      have hnil : (b' :: rest).filter (fun x => decide (x.2 ≤ t)) = [] := by
        apply filter_eq_nil_of_sorted_lt htail
        intro hd hhd
        simp only [List.head?_cons, Option.mem_def, Option.some.injEq] at hhd
        subst hhd
        exact hcase.2
      simp [List.filter_cons, hb, hnil]
    · rw [if_neg hcase]
      have hb' : b'.2 ≤ t := by
        rcases not_and_or.mp hcase with h | h
        · exact absurd hb h
        · exact not_lt.mp h
      have htail : (b' :: rest).Pairwise (fun a b => a.2 ≤ b.2) :=
        (List.pairwise_cons.mp hs).2
      have ih := assign_block_eq_getLast (b' :: rest) t (by simp) htail
        (by intro hd hhd
            simp only [List.head?_cons, Option.mem_def, Option.some.injEq] at hhd
            subst hhd; exact hb')
      rw [ih]
      have hmem : b' ∈ (b' :: rest).filter (fun x => decide (x.2 ≤ t)) := by
        simp [List.mem_filter, hb']
      have hne2 : (b' :: rest).filter (fun x => decide (x.2 ≤ t)) ≠ [] :=
        List.ne_nil_of_mem hmem
      have hfilter : (b :: b' :: rest).filter (fun x => decide (x.2 ≤ t))
          = b :: (b' :: rest).filter (fun x => decide (x.2 ≤ t)) := by
        simp [List.filter_cons, hb]
      rw [hfilter]
      obtain ⟨x, xs, hx⟩ := List.exists_cons_of_ne_nil hne2
      rw [hx, List.getLast?_cons_cons]

/-- **C1.** For a non-empty blocks list sorted ascending by start time and a
query time at or after the first start, `assign_block` returns the label of
the interval with the greatest start index whose start is `≤ t` (half-open
interval semantics, last interval unbounded); `assign_topic` computes the
same function; and on the example blocks `[("Economy", 0), ("Health", 120)]`
the times `119.9`, `120.0` and `500.0` resolve to `"Economy"`, `"Health"`
and `"Health"` respectively. -/
theorem assign_block_interval_spec :
    (∀ (l : List (String × ℚ)) (t : ℚ), l ≠ [] →
        l.Pairwise (fun a b => a.2 ≤ b.2) →
        (∀ hd ∈ l.head?, hd.2 ≤ t) →
        assign_block t l = ((l.filter (fun b => decide (b.2 ≤ t))).getLast?).map Prod.fst ∧
          assign_topic t l = assign_block t l) ∧
      assign_block (119.9 : ℚ) exampleBlocks = some "Economy" ∧
      assign_block (120 : ℚ) exampleBlocks = some "Health" ∧
      assign_block (500 : ℚ) exampleBlocks = some "Health" := by
  refine ⟨fun l t hne hs hh => ⟨assign_block_eq_getLast l t hne hs hh,
    assign_topic_eq_assign_block t l⟩, ?_, ?_, ?_⟩
  · simp only [exampleBlocks, assign_block]
    norm_num
  · simp only [exampleBlocks, assign_block]
    norm_num
  · simp only [exampleBlocks, assign_block]
    norm_num

/-- Witness for C1 at the example blocks and `t = 119.9`. -/
theorem assign_block_interval_spec_witness :
    (exampleBlocks ≠ [] ∧
        exampleBlocks.Pairwise (fun a b => a.2 ≤ b.2) ∧
        (∀ hd ∈ exampleBlocks.head?, hd.2 ≤ (119.9 : ℚ))) ∧
      assign_block (119.9 : ℚ) exampleBlocks =
          ((exampleBlocks.filter (fun b => decide (b.2 ≤ (119.9 : ℚ)))).getLast?).map Prod.fst ∧
        assign_topic (119.9 : ℚ) exampleBlocks = assign_block (119.9 : ℚ) exampleBlocks :=
  ⟨⟨by simp [exampleBlocks], by norm_num [exampleBlocks], by norm_num [exampleBlocks]⟩,
    assign_block_interval_spec.1 exampleBlocks (119.9 : ℚ) (by simp [exampleBlocks])
      (by norm_num [exampleBlocks]) (by norm_num [exampleBlocks])⟩

/-- **C10.** For a non-empty ascending blocks (or topics) list and a query
time strictly before the first start, the pair scan never fires and the
fallback returns the label of the *last* interval — not an absent value and
not (in general) the first label. -/
theorem assign_block_before_first_start
    (l : List (String × ℚ)) (t : ℚ) (hne : l ≠ [])
    (hs : l.Pairwise (fun a b => a.2 ≤ b.2))
    (hh : ∀ hd ∈ l.head?, t < hd.2) :
    assign_block t l = some (l.getLast hne).1 ∧
      assign_topic t l = some (l.getLast hne).1 := by
  suffices h : assign_block t l = some (l.getLast hne).1 by
    exact ⟨h, (assign_topic_eq_assign_block t l).trans h⟩
  induction l with
  | nil => exact absurd rfl hne
  | cons b rest ih =>
    cases rest with
    | nil => simp [assign_block]
    | cons b' rest' =>
      have hbt : t < b.2 := hh b rfl
      rw [assign_block, if_neg (by intro hc; exact absurd hc.1 (not_le.mpr hbt))]
      have htail : (b' :: rest').Pairwise (fun a b => a.2 ≤ b.2) :=
        (List.pairwise_cons.mp hs).2
      have hh' : ∀ hd ∈ (b' :: rest').head?, t < hd.2 := by
        intro hd hhd
        simp only [List.head?_cons, Option.mem_def, Option.some.injEq] at hhd
        subst hhd
        exact lt_of_lt_of_le hbt ((List.pairwise_cons.mp hs).1 b' (by simp))
      have := ih (by simp) htail hh'
      rw [this]
      rfl

/-- Witness for C10: `t = -1` lies before the first start of the example
blocks and resolves to the last label `"Health"`. -/
theorem assign_block_before_first_start_witness :
    (exampleBlocks ≠ [] ∧
        exampleBlocks.Pairwise (fun a b => a.2 ≤ b.2) ∧
        (∀ hd ∈ exampleBlocks.head?, (-1 : ℚ) < hd.2)) ∧
      assign_block (-1 : ℚ) exampleBlocks = some (exampleBlocks.getLast (by simp [exampleBlocks])).1 ∧
        assign_topic (-1 : ℚ) exampleBlocks = some (exampleBlocks.getLast (by simp [exampleBlocks])).1 :=
  ⟨⟨by simp [exampleBlocks], by norm_num [exampleBlocks], by norm_num [exampleBlocks]⟩,
    assign_block_before_first_start exampleBlocks (-1 : ℚ) (by simp [exampleBlocks])
      (by norm_num [exampleBlocks]) (by norm_num [exampleBlocks])⟩

/-- **C2.** The exact-timestamp lookups succeed iff some entry's stored time
is numerically equal to the query time: `assign_proposals` and
`assign_fact_checking` return `some` iff a time matches exactly (and then
return the payload of the first matching entry, never a nearest match),
while `assign_entities` returns `[]` whenever no time matches. -/
theorem exact_lookup_spec (t : ℚ) (le : List (ℚ × List (String × String)))
    (lp lf : List (ℚ × List String)) :
    ((assign_proposals t lp).isSome = true ↔ ∃ p ∈ lp, p.1 = t) ∧
      ((assign_fact_checking t lf).isSome = true ↔ ∃ p ∈ lf, p.1 = t) ∧
      ((∀ p ∈ le, p.1 ≠ t) → assign_entities t le = []) ∧
      (∀ v, assign_proposals t lp = some v → ∃ p ∈ lp, p.1 = t ∧ p.2 = v) ∧
      (∀ v, assign_fact_checking t lf = some v → ∃ p ∈ lf, p.1 = t ∧ p.2 = v) := by
  refine ⟨?_, ?_, ?_, ?_, ?_⟩
  · induction lp with
    | nil => simp [assign_proposals]
    | cons hd tl ih =>
      rw [show assign_proposals t (hd :: tl)
            = if hd.1 = t then some hd.2 else assign_proposals t tl from rfl]
      by_cases h : hd.1 = t
      · simp [h]
      · simpa [h] using ih
  · induction lf with
    | nil => simp [assign_fact_checking]
    | cons hd tl ih =>
      rw [show assign_fact_checking t (hd :: tl)
            = if hd.1 = t then some hd.2 else assign_fact_checking t tl from rfl]
      by_cases h : hd.1 = t
      · simp [h]
      · simpa [h] using ih
  · induction le with
    | nil => intro _; rfl
    | cons hd tl ih =>
      intro hnone
      rw [show assign_entities t (hd :: tl)
            = if hd.1 = t then hd.2 else assign_entities t tl from rfl]
      rw [if_neg (hnone hd (by simp))]
      exact ih fun p hp => hnone p (List.mem_cons_of_mem hd hp)
  · induction lp with
    | nil => intro v h; exact absurd h (by simp [assign_proposals])
    | cons hd tl ih =>
      intro v h
      rw [show assign_proposals t (hd :: tl)
            = if hd.1 = t then some hd.2 else assign_proposals t tl from rfl] at h
      by_cases heq : hd.1 = t
      · rw [if_pos heq] at h
        exact ⟨hd, by simp, heq, Option.some.inj h⟩
      · rw [if_neg heq] at h
        obtain ⟨p, hp, hpt, hpv⟩ := ih v h
        exact ⟨p, List.mem_cons_of_mem hd hp, hpt, hpv⟩
  · induction lf with
    | nil => intro v h; exact absurd h (by simp [assign_fact_checking])
    | cons hd tl ih =>
      intro v h
      rw [show assign_fact_checking t (hd :: tl)
            = if hd.1 = t then some hd.2 else assign_fact_checking t tl from rfl] at h
      by_cases heq : hd.1 = t
      · rw [if_pos heq] at h
        exact ⟨hd, by simp, heq, Option.some.inj h⟩
      · rw [if_neg heq] at h
        obtain ⟨p, hp, hpt, hpv⟩ := ih v h
        exact ⟨p, List.mem_cons_of_mem hd hp, hpt, hpv⟩

/-- Witness for C2: no entry of the example lists carries time `7`, so the
lookups come back absent/empty; with a matching entry the proposal lookup
returns exactly its payload. -/
theorem exact_lookup_spec_witness :
    ((5 : ℚ) ≠ (7 : ℚ) ∧ ((3 : ℚ)/2) ≠ (7 : ℚ)) ∧
      assign_entities (7 : ℚ) [((5 : ℚ), [("PER", "Ana")])] = [] ∧
        ¬ (assign_proposals (7 : ℚ) [((3 : ℚ)/2, ["x"])]).isSome = true := by
  have h := exact_lookup_spec (7 : ℚ) [((5 : ℚ), [("PER", "Ana")])]
    [((3 : ℚ)/2, ["x"])] []
  refine ⟨⟨by norm_num, by norm_num⟩, ?_, ?_⟩
  · exact h.2.2.1 (by intro p hp; simp at hp; subst hp; norm_num)
  · intro hcon
    obtain ⟨p, hp, hpt⟩ := h.1.mp hcon
    simp at hp
    subst hp
    exact absurd hpt (by norm_num)

/-! ### Mention dedup/sort fragment of `generate_xml` (`compile_xml.py`, lines 261–282) -/

/-- Python's tuple comparison used by
`sorted({...}, key=lambda x: (x[0], x[1]))`: lexicographic on
`(type, text)`. -/
def entLe (a b : String × String) : Prop :=
  a.1 < b.1 ∨ (a.1 = b.1 ∧ a.2 ≤ b.2)

instance : DecidableRel entLe := fun a b =>
  decidable_of_iff (a.1.toList < b.1.toList ∨ (a.1 = b.1 ∧ a.2.toList ≤ b.2.toList))
    (by rw [entLe, String.lt_iff_toList_lt, String.le_iff_toList_le])

instance : IsTotal (String × String) entLe where
  total a b := by
    rcases lt_trichotomy a.1 b.1 with h | h | h
    · exact Or.inl (Or.inl h)
    · rcases le_total a.2 b.2 with h2 | h2
      · exact Or.inl (Or.inr ⟨h, h2⟩)
      · exact Or.inr (Or.inr ⟨h.symm, h2⟩)
    · exact Or.inr (Or.inl h)

instance : IsTrans (String × String) entLe where
  trans a b c hab hbc := by
    rcases hab with h1 | ⟨he1, h1⟩
    · rcases hbc with h2 | ⟨he2, _⟩
      · exact Or.inl (h1.trans h2)
      · exact Or.inl (he2 ▸ h1)
    · rcases hbc with h2 | ⟨he2, h2⟩
      · exact Or.inl (he1 ▸ h2)
      · exact Or.inr ⟨he1.trans he2, h1.trans h2⟩

/-- The dedup-and-sort step of `generate_xml` (line 262):
`sorted({(type, nombre) for ...}, key=lambda x: (x[0], x[1]))`.  A Python
set deduplicates and `sorted` arranges the distinct pairs ascending; on
duplicate-free input every correct sort for the total order `entLe` yields
the same list, so insertion sort is an exact model. -/
def dedupSortEntities (l : List (String × String)) : List (String × String) :=
  List.insertionSort entLe l.dedup

/-- The mention-numbering loop of `generate_xml` (lines 281–282): enumerate
the deduplicated sorted pairs, producing `(id, type, text)` with ids
`"e0"`, `"e1"`, …. -/
def buildMentions (l : List (String × String)) : List (String × String × String) :=
  l.enum.map (fun p => ("e" ++ toString p.1, p.2.1, p.2.2))

/-- The whole per-intervention mention resolution: exact-timestamp lookup,
dedup, sort, number. -/
def interventionMentions (t : ℚ) (entities : List (ℚ × List (String × String))) :
    List (String × String × String) :=
  buildMentions (dedupSortEntities (assign_entities t entities))

/-- **C8.** Mentions within one intervention are deduplicated as a set of
`(type, text)` pairs, sorted lexicographically by `(type, text)`, and
numbered sequentially from `e0`; for the entity list
`[("PER","Ana"), ("PER","Ana"), ("ORG","X")]` recorded at the
intervention's timestamp the result is exactly
`[("e0","ORG","X"), ("e1","PER","Ana")]`. -/
theorem mention_dedup_sort_spec :
    (∀ l : List (String × String),
        List.Sorted entLe (dedupSortEntities l) ∧
          (dedupSortEntities l).Nodup ∧
          (∀ x, x ∈ dedupSortEntities l ↔ x ∈ l) ∧
          (buildMentions (dedupSortEntities l)).map (fun m => m.1)
            = (List.range (dedupSortEntities l).length).map (fun i => "e" ++ toString i)) ∧
      interventionMentions (5 : ℚ) [((5 : ℚ), [("PER", "Ana"), ("PER", "Ana"), ("ORG", "X")])]
        = [("e0", "ORG", "X"), ("e1", "PER", "Ana")] := by
  constructor
  · intro l
    refine ⟨List.sorted_insertionSort entLe l.dedup, ?_, ?_, ?_⟩
    · exact ((List.perm_insertionSort entLe l.dedup).nodup_iff).mpr l.nodup_dedup
    · intro x
      rw [dedupSortEntities, List.mem_insertionSort, List.mem_dedup]
    · simp only [buildMentions, List.map_map, Function.comp_def]
      rw [show (fun p : ℕ × String × String => ("e" ++ toString p.1))
            = (fun i : ℕ => "e" ++ toString i) ∘ Prod.fst from rfl]
      rw [← List.map_map, List.enum_map_fst]
  · have hassign : assign_entities (5 : ℚ)
        [((5 : ℚ), [("PER", "Ana"), ("PER", "Ana"), ("ORG", "X")])]
        = [("PER", "Ana"), ("PER", "Ana"), ("ORG", "X")] := by
      rw [show assign_entities (5 : ℚ)
            [((5 : ℚ), [("PER", "Ana"), ("PER", "Ana"), ("ORG", "X")])]
          = if (5 : ℚ) = 5 then [("PER", "Ana"), ("PER", "Ana"), ("ORG", "X")]
            else assign_entities (5 : ℚ) [] from rfl]
      exact if_pos rfl
    rw [interventionMentions, hassign]
    decide

/-! ### Emotion merge-back (`classify_emotions.py`, lines 21–63)

The XML trees handled by `generate_emotions` are modelled by a generic
element type mirroring `xml.etree.ElementTree.Element`: a tag, an ordered
attribute dictionary, optional text, and a list of child elements. -/

/-- An in-memory XML element. -/
inductive Elem : Type where
  | mk (tag : String) (attrib : List (String × String)) (text : Option String)
      (children : List Elem)

def Elem.tag : Elem → String
  | .mk t _ _ _ => t

def Elem.attrib : Elem → List (String × String)
  | .mk _ a _ _ => a

def Elem.text : Elem → Option String
  | .mk _ _ x _ => x

def Elem.children : Elem → List Elem
  | .mk _ _ _ cs => cs

/-- `attrib.get(k)` on an attribute dictionary. -/
def lookupAttr (k : String) : List (String × String) → Option String
  | [] => none
  | (k', v) :: rest => if k' = k then some v else lookupAttr k rest

/-- `elem.set(k, v)`: overwrite in place if present, else append. -/
def setAttrList (k v : String) : List (String × String) → List (String × String)
  | [] => [(k, v)]
  | (k', v') :: rest => if k' = k then (k, v) :: rest else (k', v') :: setAttrList k v rest

def Elem.getAttr (e : Elem) (k : String) : Option String :=
  lookupAttr k e.attrib

def Elem.setAttr (e : Elem) (k v : String) : Elem :=
  .mk e.tag (setAttrList k v e.attrib) e.text e.children

mutual

/-- All proper descendants of an element, in document (preorder) order —
the traversal behind `findall(".//tag")`. -/
def Elem.descendants : Elem → List Elem
  | .mk _ _ _ cs => descList cs

/-- Preorder listing of the elements of a list together with all their
descendants. -/
def descList : List Elem → List Elem
  | [] => []
  | c :: rest => c :: (Elem.descendants c ++ descList rest)

end

/-- `root.findall(".//tag")`: all descendants with the given tag, in
document order. -/
def findAllDesc (tag : String) (e : Elem) : List Elem :=
  e.descendants.filter (fun c => c.tag == tag)

/-- One well-formed classifier output record, as recovered from a parsed
response line carrying `int_id`, `sent_id` and `tags` attributes. -/
structure EmotionRecord where
  int_id : String
  sent_id : String
  tags : String
deriving DecidableEq

/-- Python's `str.strip()`: drop leading and trailing whitespace.  Defined
over the character list so that it evaluates inside the kernel. -/
def pyStrip (s : String) : String :=
  ((s.data.dropWhile Char.isWhitespace).reverse.dropWhile Char.isWhitespace).reverse.asString

/-- The sentence filter of `generate_emotions` (lines 27–31): a sentence
with truthy text is copied keeping only its `id` attribute and its
stripped text; others are dropped. -/
def filterSentence (s : Elem) : Option Elem :=
  match s.text with
  | some txt =>
    if txt ≠ "" then
      some (Elem.mk "sentence" [("id", (s.getAttr "id").getD "")] (some (pyStrip txt)) [])
    else none
  | none => none

/-- The intervention filter of `generate_emotions` (lines 25–32): keep only
the `id` attribute and the filtered descendant sentences. -/
def filterIntervention (interv : Elem) : Elem :=
  Elem.mk "intervention" [("id", (interv.getAttr "id").getD "")] none
    ((findAllDesc "sentence" interv).filterMap filterSentence)

/-- The filtering pass of `generate_emotions` (lines 24–35): a fresh
`debate` root holding the filtered copies of all descendant
interventions. -/
def filterDoc (root : Elem) : Elem :=
  Elem.mk "debate" [] none ((findAllDesc "intervention" root).map filterIntervention)

/-- `sentence.set("emotions", tags)`. -/
def setEmotions (tags : String) (s : Elem) : Elem :=
  s.setAttr "emotions" tags

/-- The sentence-loop condition: a direct child that is a `sentence`
element whose `id` equals the record's `sent_id`. -/
def sentMatch (sent_id : String) (s : Elem) : Bool :=
  s.tag == "sentence" && s.getAttr "id" == some sent_id

/-- The inner loop of `generate_emotions` (lines 55–58): scan the children
in order and set `emotions` on the first matching sentence only (the
`break`), leaving everything else untouched. -/
def setFirstSentence (sent_id tags : String) : List Elem → List Elem
  | [] => []
  | s :: rest =>
    if sentMatch sent_id s then setEmotions tags s :: rest
    else s :: setFirstSentence sent_id tags rest

/-- The intervention-loop condition: a direct child that is an
`intervention` element whose `id` equals the record's `int_id`. -/
def intervMatch (int_id : String) (c : Elem) : Bool :=
  c.tag == "intervention" && c.getAttr "id" == some int_id

/-- Effect of one record on one direct child of the root: the outer loop
(lines 53–54) has no `break`, so *every* matching intervention is
processed. -/
def stepIntervention (r : EmotionRecord) (c : Elem) : Elem :=
  if intervMatch r.int_id c then
    Elem.mk c.tag c.attrib c.text (setFirstSentence r.sent_id r.tags c.children)
  else c

/-- Applying one parsed record to the filtered document (lines 49–58). -/
def applyRecord (root : Elem) (r : EmotionRecord) : Elem :=
  Elem.mk root.tag root.attrib root.text (root.children.map (stepIntervention r))

/-- Applying a whole batch of records, in order (lines 40–58). -/
def applyBatch (root : Elem) (batch : List EmotionRecord) : Elem :=
  batch.foldl applyRecord root

/-- `generate_emotions`: filter the document, then merge the batch into the
filtered tree; the result is what is written to the output file. -/
def generate_emotions (root : Elem) (batch : List EmotionRecord) : Elem :=
  applyBatch (filterDoc root) batch

/-! #### Attribute and matching lemmas -/

lemma lookupAttr_setAttrList_ne (k k' v : String) (h : k' ≠ k) :
    ∀ a : List (String × String), lookupAttr k' (setAttrList k v a) = lookupAttr k' a
  | [] => by
    simp only [setAttrList, lookupAttr]
    rw [if_neg (fun hk => h hk.symm)]
  | (k₀, v₀) :: rest => by
    by_cases hk : k₀ = k
    · subst hk
      simp only [setAttrList, if_pos rfl, lookupAttr]
      rw [if_neg (fun hkk : k₀ = k' => h hkk.symm), if_neg (fun hkk : k₀ = k' => h hkk.symm)]
    · simp only [setAttrList, if_neg hk, lookupAttr]
      by_cases hk' : k₀ = k'
      · rw [if_pos hk', if_pos hk']
      · rw [if_neg hk', if_neg hk']
        exact lookupAttr_setAttrList_ne k k' v h rest

lemma setAttrList_absorb (k v₁ v₂ : String) :
    ∀ a : List (String × String),
      setAttrList k v₂ (setAttrList k v₁ a) = setAttrList k v₂ a
  | [] => by simp [setAttrList]
  | (k₀, v₀) :: rest => by
    by_cases hk : k₀ = k
    · subst hk
      simp [setAttrList]
    · simp only [setAttrList, if_neg hk]
      rw [setAttrList_absorb k v₁ v₂ rest]

lemma sentMatch_setEmotions (sid t : String) (s : Elem) :
    sentMatch sid (setEmotions t s) = sentMatch sid s := by
  cases s with
  | mk tg a x cs =>
    simp only [sentMatch, setEmotions, Elem.setAttr, Elem.getAttr, Elem.tag, Elem.attrib,
      Elem.text, Elem.children]
    rw [lookupAttr_setAttrList_ne "emotions" "id" t (by decide)]

lemma setEmotions_absorb (t₁ t₂ : String) (s : Elem) :
    setEmotions t₂ (setEmotions t₁ s) = setEmotions t₂ s := by
  cases s with
  | mk tg a x cs =>
    simp only [setEmotions, Elem.setAttr, Elem.tag, Elem.attrib, Elem.text, Elem.children]
    rw [setAttrList_absorb]

/-- Net effect of the (sub)sequence of records that hit one particular
sentence: each write overwrites the `emotions` attribute. -/
def emoWrites (s : Elem) (rs : List EmotionRecord) : Elem :=
  rs.foldl (fun s r => setEmotions r.tags s) s

lemma emoWrites_sentMatch (sid : String) :
    ∀ (rs : List EmotionRecord) (s : Elem),
      sentMatch sid (emoWrites s rs) = sentMatch sid s
  | [], _ => rfl
  | r :: rs, s => by
    rw [show emoWrites s (r :: rs) = emoWrites (setEmotions r.tags s) rs from rfl,
      emoWrites_sentMatch sid rs (setEmotions r.tags s), sentMatch_setEmotions]

lemma emoWrites_collapse :
    ∀ (rs : List EmotionRecord) (s : Elem) (h : rs ≠ []),
      emoWrites s rs = setEmotions (rs.getLast h).tags s
  | [r], s, _ => rfl
  | r :: r' :: rs, s, _ => by
    rw [show emoWrites s (r :: r' :: rs) = emoWrites (setEmotions r.tags s) (r' :: rs) from rfl,
      emoWrites_collapse (r' :: rs) (setEmotions r.tags s) (by simp),
      setEmotions_absorb]
    rfl

lemma emoWrites_idem (s : Elem) (rs : List EmotionRecord) :
    emoWrites (emoWrites s rs) rs = emoWrites s rs := by
  cases rs with
  | nil => rfl
  | cons r rs' =>
    rw [emoWrites_collapse (r :: rs') s (by simp),
      emoWrites_collapse (r :: rs') _ (by simp), setEmotions_absorb]

/-- Folding a record batch through the sentence-update loop. -/
def sfFold (l : List Elem) (L : List EmotionRecord) : List Elem :=
  L.foldl (fun l r => setFirstSentence r.sent_id r.tags l) l

lemma sfFold_nil : ∀ L : List EmotionRecord, sfFold [] L = []
  | [] => rfl
  | _ :: L => sfFold_nil L

lemma sfFold_cons :
    ∀ (L : List EmotionRecord) (s : Elem) (l : List Elem),
      sfFold (s :: l) L
        = emoWrites s (L.filter (fun r => sentMatch r.sent_id s))
            :: sfFold l (L.filter (fun r => ! sentMatch r.sent_id s))
  | [], s, l => rfl
  | r :: L', s, l => by
    rw [show sfFold (s :: l) (r :: L')
          = sfFold (setFirstSentence r.sent_id r.tags (s :: l)) L' from rfl]
    by_cases h : sentMatch r.sent_id s
    · rw [show setFirstSentence r.sent_id r.tags (s :: l)
            = setEmotions r.tags s :: l from by simp [setFirstSentence, h]]
      rw [sfFold_cons L' (setEmotions r.tags s) l]
      simp only [sentMatch_setEmotions]
      rw [show (r :: L').filter (fun r' => sentMatch r'.sent_id s)
            = r :: L'.filter (fun r' => sentMatch r'.sent_id s) from by
          simp [List.filter_cons, h]]
      rw [show (r :: L').filter (fun r' => ! sentMatch r'.sent_id s)
            = L'.filter (fun r' => ! sentMatch r'.sent_id s) from by
          simp [List.filter_cons, h]]
      rfl
    · rw [show setFirstSentence r.sent_id r.tags (s :: l)
            = s :: setFirstSentence r.sent_id r.tags l from by simp [setFirstSentence, h]]
      rw [sfFold_cons L' s (setFirstSentence r.sent_id r.tags l)]
      rw [show (r :: L').filter (fun r' => sentMatch r'.sent_id s)
            = L'.filter (fun r' => sentMatch r'.sent_id s) from by
          simp [List.filter_cons, h]]
      rw [show (r :: L').filter (fun r' => ! sentMatch r'.sent_id s)
            = r :: L'.filter (fun r' => ! sentMatch r'.sent_id s) from by
          simp [List.filter_cons, h]]
      rfl

lemma sfFold_idem : ∀ (l : List Elem) (L : List EmotionRecord),
    sfFold (sfFold l L) L = sfFold l L
  | [], L => by rw [sfFold_nil, sfFold_nil]
  | s :: l, L => by
    rw [sfFold_cons L s l]
    rw [sfFold_cons L (emoWrites s (L.filter (fun r => sentMatch r.sent_id s)))
      (sfFold l (L.filter (fun r => ! sentMatch r.sent_id s)))]
    simp only [emoWrites_sentMatch]
    rw [emoWrites_idem, sfFold_idem l]

/-- Folding a record batch through the intervention-update loop on one
child of the root. -/
def stepFold (c : Elem) (L : List EmotionRecord) : Elem :=
  L.foldl (fun c r => stepIntervention r c) c

lemma Elem.eta (c : Elem) : Elem.mk c.tag c.attrib c.text c.children = c := by
  cases c
  rfl

lemma intervMatch_withChildren (iid : String) (c : Elem) (X : List Elem) :
    intervMatch iid (Elem.mk c.tag c.attrib c.text X) = intervMatch iid c := by
  cases c
  rfl

lemma stepFold_eq :
    ∀ (L : List EmotionRecord) (c : Elem),
      stepFold c L
        = Elem.mk c.tag c.attrib c.text
            (sfFold c.children (L.filter (fun r => intervMatch r.int_id c)))
  | [], c => (Elem.eta c).symm
  | r :: L', c => by
    rw [show stepFold c (r :: L') = stepFold (stepIntervention r c) L' from rfl]
    by_cases h : intervMatch r.int_id c
    · rw [show stepIntervention r c
            = Elem.mk c.tag c.attrib c.text
                (setFirstSentence r.sent_id r.tags c.children) from by
          simp [stepIntervention, h]]
      rw [stepFold_eq L' (Elem.mk c.tag c.attrib c.text
        (setFirstSentence r.sent_id r.tags c.children))]
      simp only [Elem.tag, Elem.attrib, Elem.text, Elem.children, intervMatch_withChildren]
      rw [show (r :: L').filter (fun r' => intervMatch r'.int_id c)
            = r :: L'.filter (fun r' => intervMatch r'.int_id c) from by
          simp [List.filter_cons, h]]
      rfl
    · rw [show stepIntervention r c = c from by simp [stepIntervention, h]]
      rw [stepFold_eq L' c]
      rw [show (r :: L').filter (fun r' => intervMatch r'.int_id c)
            = L'.filter (fun r' => intervMatch r'.int_id c) from by
          simp [List.filter_cons, h]]

lemma stepFold_idem (c : Elem) (L : List EmotionRecord) :
    stepFold (stepFold c L) L = stepFold c L := by
  cases c with
  | mk t a x cs =>
    simp only [stepFold_eq, Elem.tag, Elem.attrib, Elem.text, Elem.children,
      intervMatch, Elem.getAttr]
    rw [sfFold_idem]

lemma applyBatch_eq :
    ∀ (L : List EmotionRecord) (root : Elem),
      applyBatch root L
        = Elem.mk root.tag root.attrib root.text
            (root.children.map (fun c => stepFold c L))
  | [], root => by
    rw [show applyBatch root [] = root from rfl]
    rw [show root.children.map (fun c => stepFold c []) = root.children.map (fun c => c) from rfl]
    rw [List.map_id']
    exact (Elem.eta root).symm
  | r :: L', root => by
    rw [show applyBatch root (r :: L') = applyBatch (applyRecord root r) L' from rfl]
    rw [applyBatch_eq L' (applyRecord root r)]
    rw [show applyRecord root r
          = Elem.mk root.tag root.attrib root.text
              (root.children.map (stepIntervention r)) from rfl]
    simp only [Elem.tag, Elem.attrib, Elem.text, Elem.children, List.map_map]
    rfl

lemma applyBatch_idem (root : Elem) (L : List EmotionRecord) :
    applyBatch (applyBatch root L) L = applyBatch root L := by
  rw [applyBatch_eq L root, applyBatch_eq L (Elem.mk root.tag root.attrib root.text
    (root.children.map (fun c => stepFold c L)))]
  simp only [Elem.tag, Elem.attrib, Elem.text, Elem.children, List.map_map]
  simp only [Function.comp_def, stepFold_idem]

/-- **C5.** The merge-back is idempotent: re-applying the same batch of
well-formed records to the already-tagged output of `generate_emotions`
yields the same document — the second pass overwrites each matched
sentence's `emotions` attribute with the identical value. -/
theorem generate_emotions_idempotent (root : Elem) (batch : List EmotionRecord) :
    applyBatch (generate_emotions root batch) batch = generate_emotions root batch := by
  rw [generate_emotions]
  exact applyBatch_idem _ _

lemma setFirstSentence_eq_modify (sid tags : String) :
    ∀ l : List Elem,
      setFirstSentence sid tags l
        = List.modify (setEmotions tags) (l.findIdx (sentMatch sid)) l
  | [] => rfl
  | s :: rest => by
    by_cases h : sentMatch sid s
    · simp [setFirstSentence, h, List.findIdx_cons]
    · simp only [setFirstSentence, if_neg h, List.findIdx_cons, h, cond_false]
      rw [setFirstSentence_eq_modify sid tags rest]
      simp

/-- **C6 (amended).** Applying one record updates, inside *every* root
child matching the intervention id (the outer loop has no `break`), exactly
the first child sentence whose id matches — one sentence per matching
intervention, not exactly one sentence overall. -/
theorem mergeback_first_match_per_intervention (root : Elem) (r : EmotionRecord) :
    applyRecord root r
      = Elem.mk root.tag root.attrib root.text
          (root.children.map (fun c =>
            if intervMatch r.int_id c then
              Elem.mk c.tag c.attrib c.text
                (List.modify (setEmotions r.tags)
                  (c.children.findIdx (sentMatch r.sent_id)) c.children)
            else c)) := by
  have hstep : stepIntervention r = fun c =>
      if intervMatch r.int_id c then
        Elem.mk c.tag c.attrib c.text
          (List.modify (setEmotions r.tags)
            (c.children.findIdx (sentMatch r.sent_id)) c.children)
      else c := by
    funext c
    simp only [stepIntervention, setFirstSentence_eq_modify]
  rw [applyRecord, hstep]

/-- Number of sentence elements anywhere in the tree that carry an
`emotions` attribute. -/
def emoCount (root : Elem) : Nat :=
  (root.descendants.filter
    (fun s => s.tag == "sentence" && (s.getAttr "emotions").isSome)).length

/-- A filtered document in which two interventions carry the same id
`i0`, each holding a sentence with id `s0`. -/
def dupIdDoc : Elem :=
  Elem.mk "debate" [] none
    [Elem.mk "intervention" [("id", "i0")] none
      [Elem.mk "sentence" [("id", "s0")] (some "A") []],
     Elem.mk "intervention" [("id", "i0")] none
      [Elem.mk "sentence" [("id", "s0")] (some "B") []]]

/-- **C6 counterexample.** With duplicated intervention ids, one record
tags *two* sentences — not exactly one: the scan does not stop after the
first matching intervention. -/
theorem mergeback_duplicate_ids_two_updates :
    emoCount (applyRecord dupIdDoc ⟨"i0", "s0", "joy"⟩) = 2 ∧
      emoCount dupIdDoc = 0 ∧
      emoCount (applyRecord dupIdDoc ⟨"i0", "s0", "joy"⟩) ≠ 1 := by
  refine ⟨by decide, by decide, by decide⟩

/-! #### What merge-back preserves (C7) -/

/-- Remove the key `k` from an attribute dictionary. -/
def eraseAttrList (k : String) (a : List (String × String)) : List (String × String) :=
  a.filter (fun p => p.1 != k)

mutual

/-- Erase every `emotions` attribute anywhere in the tree. -/
def Elem.stripEmotions : Elem → Elem
  | .mk t a x cs => .mk t (eraseAttrList "emotions" a) x (stripList cs)

/-- `Elem.stripEmotions` mapped over a list of elements. -/
def stripList : List Elem → List Elem
  | [] => []
  | c :: rest => c.stripEmotions :: stripList rest

end

lemma eraseAttrList_setAttrList (k v : String) :
    ∀ a : List (String × String),
      eraseAttrList k (setAttrList k v a) = eraseAttrList k a
  | [] => by simp [setAttrList, eraseAttrList, List.filter]
  | (k₀, v₀) :: rest => by
    by_cases hk : k₀ = k
    · subst hk
      simp [setAttrList, eraseAttrList, List.filter_cons]
    · simp only [setAttrList, if_neg hk, eraseAttrList, List.filter_cons]
      rw [show ((k₀, v₀).1 != k) = true from by simpa using hk]
      simp only [cond_true]
      have := eraseAttrList_setAttrList k v rest
      simp only [eraseAttrList] at this
      rw [this]

lemma stripEmotions_setEmotions (t : String) (s : Elem) :
    (setEmotions t s).stripEmotions = s.stripEmotions := by
  cases s with
  | mk tg a x cs =>
    simp only [setEmotions, Elem.setAttr, Elem.tag, Elem.attrib, Elem.text, Elem.children,
      Elem.stripEmotions]
    rw [eraseAttrList_setAttrList]

lemma stripList_setFirstSentence (sid tags : String) :
    ∀ l : List Elem, stripList (setFirstSentence sid tags l) = stripList l
  | [] => rfl
  | s :: rest => by
    by_cases h : sentMatch sid s
    · simp only [setFirstSentence, if_pos h, stripList, stripEmotions_setEmotions]
    · simp only [setFirstSentence, if_neg h, stripList,
        stripList_setFirstSentence sid tags rest]

lemma stripEmotions_stepIntervention (r : EmotionRecord) (c : Elem) :
    (stepIntervention r c).stripEmotions = c.stripEmotions := by
  cases c with
  | mk t a x cs =>
    by_cases h : intervMatch r.int_id (Elem.mk t a x cs)
    · simp only [stepIntervention, if_pos h, Elem.tag, Elem.attrib, Elem.text, Elem.children,
        Elem.stripEmotions, stripList_setFirstSentence]
    · simp only [stepIntervention, if_neg h]

lemma stripList_map_stepIntervention (r : EmotionRecord) :
    ∀ cs : List Elem, stripList (cs.map (stepIntervention r)) = stripList cs
  | [] => rfl
  | c :: rest => by
    simp only [List.map_cons, stripList, stripEmotions_stepIntervention,
      stripList_map_stepIntervention r rest]

lemma stripEmotions_applyRecord (root : Elem) (r : EmotionRecord) :
    (applyRecord root r).stripEmotions = root.stripEmotions := by
  cases root with
  | mk t a x cs =>
    simp only [applyRecord, Elem.tag, Elem.attrib, Elem.text, Elem.children,
      Elem.stripEmotions, stripList_map_stepIntervention]

lemma stripEmotions_applyBatch :
    ∀ (L : List EmotionRecord) (root : Elem),
      (applyBatch root L).stripEmotions = root.stripEmotions
  | [], _ => rfl
  | r :: L', root => by
    rw [show applyBatch root (r :: L') = applyBatch (applyRecord root r) L' from rfl,
      stripEmotions_applyBatch L' (applyRecord root r), stripEmotions_applyRecord]

lemma stripEmotions_filterSentence (s e : Elem) (h : filterSentence s = some e) :
    e.stripEmotions = e := by
  cases hx : s.text with
  | none => simp [filterSentence, hx] at h
  | some txt =>
    by_cases ht : txt = ""
    · simp [filterSentence, hx, ht] at h
    · rw [show filterSentence s
            = some (Elem.mk "sentence" [("id", (s.getAttr "id").getD "")]
                (some (pyStrip txt)) []) from by simp [filterSentence, hx, ht]] at h
      cases h
      simp [Elem.stripEmotions, eraseAttrList, List.filter, stripList]

lemma stripList_filterMap_filterSentence :
    ∀ l : List Elem,
      stripList (l.filterMap filterSentence) = l.filterMap filterSentence
  | [] => rfl
  | s :: rest => by
    cases hs : filterSentence s with
    | none =>
      simp only [List.filterMap_cons, hs, stripList_filterMap_filterSentence rest]
    | some e =>
      simp only [List.filterMap_cons, hs, stripList,
        stripEmotions_filterSentence s e hs, stripList_filterMap_filterSentence rest]

lemma stripEmotions_filterIntervention (interv : Elem) :
    (filterIntervention interv).stripEmotions = filterIntervention interv := by
  simp only [filterIntervention, Elem.stripEmotions, stripList_filterMap_filterSentence]
  rw [show eraseAttrList "emotions" [("id", (interv.getAttr "id").getD "")]
        = [("id", (interv.getAttr "id").getD "")] from by
      simp [eraseAttrList, List.filter]]

lemma stripList_map_filterIntervention :
    ∀ l : List Elem,
      stripList (l.map filterIntervention) = l.map filterIntervention
  | [] => rfl
  | c :: rest => by
    simp only [List.map_cons, stripList, stripEmotions_filterIntervention,
      stripList_map_filterIntervention rest]

lemma stripEmotions_filterDoc (root : Elem) :
    (filterDoc root).stripEmotions = filterDoc root := by
  simp only [filterDoc, Elem.stripEmotions, stripList_map_filterIntervention]
  rfl

/-- **C7 (amended).** Batch application writes nothing but `emotions`
attributes: erasing them from the output of `generate_emotions` gives back
exactly the *filtered projection* of the input document.  The output is
this filtered skeleton (intervention ids, sentence ids and stripped texts),
not the full document — participants, blocks, mentions, proposals, claims
and linguistic-stats are not carried through. -/
theorem mergeback_touches_only_emotions (root : Elem) (batch : List EmotionRecord) :
    (generate_emotions root batch).stripEmotions = filterDoc root := by
  rw [generate_emotions, stripEmotions_applyBatch, stripEmotions_filterDoc]

/-- A fully assembled debate document with a participants registry, a
block, a mention and a sentence. -/
def fullDoc : Elem :=
  Elem.mk "debate" [("date", "2020-01-01")] none
    [Elem.mk "participants" [] none
      [Elem.mk "participant" [("id", "p0"), ("full-name", "Ana"), ("party", "A")] none []],
     Elem.mk "blocks" [] none
      [Elem.mk "block" [("id", "b0"), ("topic", "Economy")] none
        [Elem.mk "interventions" [] none
          [Elem.mk "intervention" [("id", "i000"), ("participant-id", "p0"), ("topic", "T")] none
            [Elem.mk "mentions" [] none
              [Elem.mk "mention" [("id", "e0"), ("type", "ORG"), ("text", "X")] none []],
             Elem.mk "sentences" [] none
              [Elem.mk "sentence" [("id", "s0")] (some "Hello world") []]]]]]]

/-- **C7 counterexample.** The output document of `generate_emotions` does
*not* leave the rest of the document unchanged: the input has a
`participants` child (and mentions, blocks, …), the output has none — the
merge-back output is the filtered projection only. -/
theorem mergeback_output_drops_participants :
    ((generate_emotions fullDoc []).children.filter
        (fun c => c.tag == "participants")).length = 0 ∧
      (fullDoc.children.filter (fun c => c.tag == "participants")).length = 1 ∧
      ((generate_emotions fullDoc []).descendants.filter
        (fun c => c.tag == "mention")).length = 0 ∧
      (fullDoc.descendants.filter (fun c => c.tag == "mention")).length = 1 := by
  refine ⟨by decide, by decide, by decide, by decide⟩

/-! ### Aggregation engine (`generate_html_reports.py`)

The embedding covers the slice of `process_intervention` / `process_block`
/ `process_xml` / `main` that the verified claims are about: resolution of
speaker and party keys, lazy accumulator initialization, intervention /
claim / proposal / fallacy counts, the deduplicated text→origin maps at
speaker, party and debate scope, party participant sets, and the
per-debate records (`debates_info`).  Fields not touched by any claim
(word counts, sentence-length lists, linguistic-stat sums, emotions,
topics, mention lists) are omitted.  Python `dict`s are association lists
with overwrite-in-place (`dset`), Python `set`s duplicate-free lists
(`saddMem`). -/

/-- A `<sentence>` node as read by the aggregation engine. -/
structure Sentence where
  id : Option String
  text : Option String
  emotions : Option String
deriving DecidableEq

/-- A `<fallacy>` node (text content plus `category` attribute). -/
structure FallacyNode where
  category : Option String
  text : Option String
deriving DecidableEq

/-- An `<intervention>` node: `find(...)` returning `None` is modelled by
`Option` on each sub-structure; claim and proposal nodes carry optional
text content. -/
structure Intervention where
  id : Option String
  participantId : Option String
  sentences : Option (List Sentence)
  claims : Option (List (Option String))
  proposals : Option (List (Option String))
  fallacies : Option (List FallacyNode)
deriving DecidableEq

/-- A `<block>` node (its `<interventions>` child may be absent). -/
structure BlockNode where
  interventions : Option (List Intervention)
deriving DecidableEq

/-- A `<participant>` node. -/
structure ParticipantNode where
  id : Option String
  fullName : Option String
  party : Option String
deriving DecidableEq

/-- A parsed debate document. -/
structure Debate where
  date : Option String
  participants : List ParticipantNode
  blocks : List BlockNode
deriving DecidableEq

/-- `d.get(k)` on a Python dict modelled as an association list. -/
def dget? {α β : Type} [DecidableEq α] (k : α) : List (α × β) → Option β
  | [] => none
  | (k', v) :: rest => if k' = k then some v else dget? k rest

/-- `d[k] = v` on a Python dict: overwrite in place if the key exists,
append otherwise. -/
def dset {α β : Type} [DecidableEq α] (k : α) (v : β) : List (α × β) → List (α × β)
  | [] => [(k, v)]
  | (k', v') :: rest => if k' = k then (k, v) :: rest else (k', v') :: dset k v rest

/-- `s.add(x)` on a Python set modelled as a duplicate-free list. -/
def saddMem (x : String) (l : List String) : List String :=
  if x ∈ l then l else l ++ [x]

/-- Python truthiness of an optional string (`None` and `""` are falsy). -/
def truthy : Option String → Bool
  | some s => s != ""
  | none => false

/-- Value stored in the speaker/party dedup maps:
`(debate_id, intervention_id, full_text)`. -/
structure Origin where
  d_id : String
  i_id : Option String
  full_text : String
deriving DecidableEq

/-- Value stored in the per-debate dedup maps:
`(debate_id, intervention_id, full_text, speaker_name)`. -/
structure Origin4 where
  d_id : String
  i_id : Option String
  full_text : String
  speaker : String
deriving DecidableEq

/-- One element of a `claims_texts` / `proposals_texts` /
`fallacies_texts` list collected by `process_intervention`. -/
structure TextEntry where
  formatted : String
  d_id : String
  i_id : Option String
  full_text : String
  speaker : String
deriving DecidableEq

/-- Per-speaker accumulator (`speaker_metrics[key]`), restricted to the
verified fields. -/
structure SpeakerMetrics where
  party : String
  interventions : Nat
  claims : Nat
  proposals : Nat
  fallacies : Nat
  claims_texts : List (String × Origin)
  proposals_texts : List (String × Origin)
  fallacies_texts : List (String × Origin)
deriving DecidableEq

/-- Per-party accumulator (`party_metrics[key]`), restricted to the
verified fields. -/
structure PartyMetrics where
  participants : List String
  interventions : Nat
  claims : Nat
  proposals : Nat
  fallacies : Nat
  claims_texts : List (String × Origin)
  proposals_texts : List (String × Origin)
  fallacies_texts : List (String × Origin)
deriving DecidableEq

/-- The record returned by `process_intervention`, restricted to the
verified fields. -/
structure InterInfo where
  intervention_id : Option String
  speaker_key : String
  party_key : String
  full_intervention_text : String
  num_claims : Nat
  num_proposals : Nat
  num_fallacies : Nat
  claims_texts : List TextEntry
  proposals_texts : List TextEntry
  fallacies_texts : List TextEntry
deriving DecidableEq

/-- One entry of `global_metrics["debates_info"]`, restricted to the
verified fields. -/
structure DebateInfo where
  interventions : Nat
  num_claims : Nat
  num_proposals : Nat
  num_fallacies : Nat
  claims_texts : List (String × Origin4)
  proposals_texts : List (String × Origin4)
  fallacies_texts : List (String × Origin4)
deriving DecidableEq

/-- `global_metrics`, restricted to the verified fields. -/
structure GlobalMetrics where
  debates : Nat
  blocks : Nat
  interventions : Nat
  claims : Nat
  proposals : Nat
  fallacies : Nat
  debates_info : List (String × DebateInfo)
deriving DecidableEq

def initGlobalMetrics : GlobalMetrics := ⟨0, 0, 0, 0, 0, 0, []⟩

/-- `parse_participants`: map participant id to stripped full name and
stripped party, with defaults `"Unknown"` / `"No party"`. -/
def parse_participants (ps : List ParticipantNode) :
    List (Option String × String × String) :=
  ps.foldl
    (fun m p => dset p.id (pyStrip (p.fullName.getD "Unknown"),
      pyStrip (p.party.getD "No party")) m)
    []

/-- `speaker_name` resolution (`process_intervention`, line 133). -/
def resolveSpeakerName (pmap : List (Option String × String × String))
    (iv : Intervention) : String :=
  ((dget? iv.participantId pmap).map Prod.fst).getD "Unknown"

/-- `party` resolution (`process_intervention`, line 135). -/
def resolveParty (pmap : List (Option String × String × String))
    (iv : Intervention) : String :=
  pyStrip (((dget? iv.participantId pmap).map (fun x => x.2)).getD "No party")

/-- `speaker_key` resolution (`process_intervention`, line 134). -/
def resolveSpeakerKey (pmap : List (Option String × String × String))
    (iv : Intervention) : String :=
  if pyStrip (resolveSpeakerName pmap iv) ≠ "" then pyStrip (resolveSpeakerName pmap iv)
  else "Unknown"

/-- `party_key` resolution (`process_intervention`, line 136). -/
def resolvePartyKey (pmap : List (Option String × String × String))
    (iv : Intervention) : String :=
  if resolveParty pmap iv ≠ "" then resolveParty pmap iv else "No party"

/-- `full_intervention_text` (`process_intervention`, line 204): space-join
of the stripped texts of the sentences with truthy text. -/
def fullTextOf (iv : Intervention) : String :=
  match iv.sentences with
  | none => ""
  | some sl =>
    String.intercalate " "
      ((sl.filter (fun s => truthy s.text)).map (fun s => pyStrip (s.text.getD "")))

/-- The claim loop (`process_intervention`, lines 285–289): collect
formatted claims of non-moderator speakers with truthy intervention id and
non-empty stripped text. -/
def claimsTuples (sn : String) (iid : Option String) (d full : String)
    (cl : List (Option String)) : List TextEntry :=
  cl.filterMap (fun c =>
    let ct := if truthy c then pyStrip (c.getD "") else ""
    if ct ≠ "" ∧ truthy iid = true ∧ sn ≠ "MODERADOR" ∧ sn ≠ "DECLARACIONES" then
      some ⟨sn ++ ": " ++ ct, d, iid, full, sn⟩
    else none)

/-- The proposal loop (`process_intervention`, lines 297–301): same filter
and format as claims. -/
def proposalsTuples (sn : String) (iid : Option String) (d full : String)
    (pl : List (Option String)) : List TextEntry :=
  pl.filterMap (fun p =>
    let pt := if truthy p then pyStrip (p.getD "") else ""
    if pt ≠ "" ∧ truthy iid = true ∧ sn ≠ "MODERADOR" ∧ sn ≠ "DECLARACIONES" then
      some ⟨sn ++ ": " ++ pt, d, iid, full, sn⟩
    else none)

/-- The fallacy loop (`process_intervention`, lines 309–312): *no* speaker
or intervention-id filter; a missing category formats as `"None"` as in a
Python f-string. -/
def fallacyTuples (sn : String) (iid : Option String) (d full : String)
    (fl : List FallacyNode) : List TextEntry :=
  fl.map (fun f =>
    let ft := if truthy f.text then pyStrip (f.text.getD "") else ""
    ⟨sn ++ " (" ++ f.category.getD "None" ++ "): " ++ ft, d, iid, full, sn⟩)

/-- The dedup-map update loop (`process_intervention`, lines 340–351):
`map[formatted] = (d_id, i_id, full_text)` for each collected tuple, in
order. -/
def foldTexts (ts : List TextEntry) (m : List (String × Origin)) : List (String × Origin) :=
  ts.foldl (fun m t => dset t.formatted ⟨t.d_id, t.i_id, t.full_text⟩ m) m

/-- The per-debate dedup-map update loop (`process_xml`, lines 467–472):
`map[text] = (d_id, i_id, full_text, speaker_name)`. -/
def foldTexts4 (ts : List TextEntry) (m : List (String × Origin4)) : List (String × Origin4) :=
  ts.foldl (fun m t => dset t.formatted ⟨t.d_id, t.i_id, t.full_text, t.speaker⟩ m) m

/-- Lazy speaker-accumulator initialization (`process_intervention`,
lines 139–162): note the stored `party` is the stripped party string, not
`party_key`. -/
def initSpeakerMetrics (party : String) : SpeakerMetrics :=
  ⟨party, 0, 0, 0, 0, [], [], []⟩

/-- Lazy party-accumulator initialization (`process_intervention`,
lines 165–188). -/
def initPartyMetrics : PartyMetrics :=
  ⟨[], 0, 0, 0, 0, [], [], []⟩

/-- `process_intervention` (`generate_html_reports.py`, lines 130–370),
restricted to the verified fields.  The Python code initializes the dict
entry lazily and then mutates it in place; here the entry is fetched (or
initialized), updated, and stored back with `dset`. -/
def process_intervention (iv : Intervention)
    (pmap : List (Option String × String × String))
    (speakers : List (String × SpeakerMetrics))
    (parties : List (String × PartyMetrics)) (debateId : String) :
    InterInfo × List (String × SpeakerMetrics) × List (String × PartyMetrics) :=
  let speaker_name := resolveSpeakerName pmap iv
  let speaker_key := resolveSpeakerKey pmap iv
  let party := resolveParty pmap iv
  let party_key := resolvePartyKey pmap iv
  let sm := (dget? speaker_key speakers).getD (initSpeakerMetrics party)
  let pm := (dget? party_key parties).getD initPartyMetrics
  let pm := { pm with participants := saddMem speaker_key pm.participants }
  let sm := { sm with interventions := sm.interventions + 1 }
  let pm := { pm with interventions := pm.interventions + 1 }
  let full_text := fullTextOf iv
  let num_claims := (iv.claims.getD []).length
  let cts := claimsTuples speaker_name iv.id debateId full_text (iv.claims.getD [])
  let num_proposals := (iv.proposals.getD []).length
  let pts := proposalsTuples speaker_name iv.id debateId full_text (iv.proposals.getD [])
  let num_fallacies := (iv.fallacies.getD []).length
  let fts := fallacyTuples speaker_name iv.id debateId full_text (iv.fallacies.getD [])
  let sm := { sm with
    claims := sm.claims + num_claims,
    proposals := sm.proposals + num_proposals,
    fallacies := sm.fallacies + num_fallacies }
  let pm := { pm with
    claims := pm.claims + num_claims,
    proposals := pm.proposals + num_proposals,
    fallacies := pm.fallacies + num_fallacies }
  let sm := { sm with claims_texts := foldTexts cts sm.claims_texts }
  let pm := { pm with claims_texts := foldTexts cts pm.claims_texts }
  let sm := { sm with proposals_texts := foldTexts pts sm.proposals_texts }
  let pm := { pm with proposals_texts := foldTexts pts pm.proposals_texts }
  let sm := { sm with fallacies_texts := foldTexts fts sm.fallacies_texts }
  let pm := { pm with fallacies_texts := foldTexts fts pm.fallacies_texts }
  (⟨iv.id, speaker_key, party_key, full_text, num_claims, num_proposals, num_fallacies,
      cts, pts, fts⟩,
   dset speaker_key sm speakers, dset party_key pm parties)

/-- One iteration of the intervention loop of `process_block`
(lines 383–397), restricted to the verified fields. -/
def blockStep (pmap : List (Option String × String × String)) (debateId : String)
    (acc : List InterInfo × GlobalMetrics ×
      List (String × SpeakerMetrics) × List (String × PartyMetrics))
    (iv : Intervention) :
    List InterInfo × GlobalMetrics ×
      List (String × SpeakerMetrics) × List (String × PartyMetrics) :=
  let r := process_intervention iv pmap acc.2.2.1 acc.2.2.2 debateId
  (acc.1 ++ [r.1],
   { acc.2.1 with
      interventions := acc.2.1.interventions + 1,
      claims := acc.2.1.claims + r.1.num_claims,
      proposals := acc.2.1.proposals + r.1.num_proposals,
      fallacies := acc.2.1.fallacies + r.1.num_fallacies },
   r.2.1, r.2.2)

/-- `process_block` (lines 372–399), restricted to the verified fields: a
missing `<interventions>` child yields no processing; otherwise each
intervention is processed in order, incrementing the global counters. -/
def process_block (b : BlockNode) (pmap : List (Option String × String × String))
    (g : GlobalMetrics) (speakers : List (String × SpeakerMetrics))
    (parties : List (String × PartyMetrics)) (debateId : String) :
    List InterInfo × GlobalMetrics ×
      List (String × SpeakerMetrics) × List (String × PartyMetrics) :=
  match b.interventions with
  | none => ([], g, speakers, parties)
  | some ivs => ivs.foldl (blockStep pmap debateId) ([], g, speakers, parties)

/-- One iteration of the block loop of `process_xml` (lines 428–433),
restricted to the verified fields. -/
def xmlStep (pmap : List (Option String × String × String)) (debateId : String)
    (acc : List InterInfo × GlobalMetrics ×
      List (String × SpeakerMetrics) × List (String × PartyMetrics))
    (b : BlockNode) :
    List InterInfo × GlobalMetrics ×
      List (String × SpeakerMetrics) × List (String × PartyMetrics) :=
  let r := process_block b pmap acc.2.1 acc.2.2.1 acc.2.2.2 debateId
  (acc.1 ++ r.1, r.2.1, r.2.2.1, r.2.2.2)

/-- One of the per-debate dedup maps of `process_xml` (lines 442–444 and
467–472): fold the collected tuples of every intervention, in order, into
a fresh local dict. -/
def localTexts (infos : List InterInfo) (f : InterInfo → List TextEntry) :
    List (String × Origin4) :=
  infos.foldl (fun m info => foldTexts4 (f info) m) []

/-- The per-debate record stored into `debates_info` (lines 478–499),
restricted to the verified fields. -/
def debateInfoOf (infos : List InterInfo) : DebateInfo :=
  { interventions := infos.length,
    num_claims := (infos.map (fun i => i.num_claims)).sum,
    num_proposals := (infos.map (fun i => i.num_proposals)).sum,
    num_fallacies := (infos.map (fun i => i.num_fallacies)).sum,
    claims_texts := localTexts infos (fun i => i.claims_texts),
    proposals_texts := localTexts infos (fun i => i.proposals_texts),
    fallacies_texts := localTexts infos (fun i => i.fallacies_texts) }

/-- `process_xml` (lines 401–500), restricted to the verified fields:
`debate_id` falls back to the file path when the `date` attribute is
absent; the per-debate record overwrites any previous entry with the same
debate id. -/
def process_xml (d : Debate) (path : String) (g : GlobalMetrics)
    (speakers : List (String × SpeakerMetrics))
    (parties : List (String × PartyMetrics)) :
    String × GlobalMetrics ×
      List (String × SpeakerMetrics) × List (String × PartyMetrics) :=
  let g := { g with debates := g.debates + 1 }
  let debate_id := d.date.getD path
  let pmap := parse_participants d.participants
  let g := { g with blocks := g.blocks + d.blocks.length }
  let folded :=
    d.blocks.foldl (xmlStep pmap debate_id) (([] : List InterInfo), g, speakers, parties)
  let g := { folded.2.1 with
    debates_info := dset debate_id (debateInfoOf folded.1) folded.2.1.debates_info }
  (debate_id, g, folded.2.2.1, folded.2.2.2)

/-- One iteration of the directory walk of `main` (lines 2394–2399),
restricted to the aggregation pass. -/
def mainStep
    (acc : GlobalMetrics × List (String × SpeakerMetrics) × List (String × PartyMetrics))
    (doc : Debate × String) :
    GlobalMetrics × List (String × SpeakerMetrics) × List (String × PartyMetrics) :=
  let r := process_xml doc.1 doc.2 acc.1 acc.2.1 acc.2.2
  (r.2.1, r.2.2.1, r.2.2.2)

/-- `main` (lines 2366–2399), restricted to the aggregation pass: process
every document in order against shared accumulators. -/
def mainAggregate (docs : List (Debate × String)) :
    GlobalMetrics × List (String × SpeakerMetrics) × List (String × PartyMetrics) :=
  docs.foldl mainStep (initGlobalMetrics, [], [])

/-! #### Accessors and dictionary lemmas -/

/-- Interventions counted for a speaker key (0 when the key is absent). -/
def spInterCnt (s : String) (S : List (String × SpeakerMetrics)) : Nat :=
  ((dget? s S).map (fun m => m.interventions)).getD 0

/-- Claims counted for a speaker key. -/
def spClaimsCnt (s : String) (S : List (String × SpeakerMetrics)) : Nat :=
  ((dget? s S).map (fun m => m.claims)).getD 0

/-- A speaker's dedup claim map (empty when the key is absent). -/
def spClaimsTexts (s : String) (S : List (String × SpeakerMetrics)) :
    List (String × Origin) :=
  ((dget? s S).map (fun m => m.claims_texts)).getD []

/-- A speaker's dedup proposal map. -/
def spProposalsTexts (s : String) (S : List (String × SpeakerMetrics)) :
    List (String × Origin) :=
  ((dget? s S).map (fun m => m.proposals_texts)).getD []

/-- A speaker's dedup fallacy map. -/
def spFallaciesTexts (s : String) (S : List (String × SpeakerMetrics)) :
    List (String × Origin) :=
  ((dget? s S).map (fun m => m.fallacies_texts)).getD []

/-- Interventions counted for a party key. -/
def paInterCnt (p : String) (P : List (String × PartyMetrics)) : Nat :=
  ((dget? p P).map (fun m => m.interventions)).getD 0

/-- Claims counted for a party key. -/
def paClaimsCnt (p : String) (P : List (String × PartyMetrics)) : Nat :=
  ((dget? p P).map (fun m => m.claims)).getD 0

/-- A party's participant set. -/
def paParticipants (p : String) (P : List (String × PartyMetrics)) : List String :=
  ((dget? p P).map (fun m => m.participants)).getD []

/-- A party's dedup claim map. -/
def paClaimsTexts (p : String) (P : List (String × PartyMetrics)) :
    List (String × Origin) :=
  ((dget? p P).map (fun m => m.claims_texts)).getD []

/-- A party's dedup proposal map. -/
def paProposalsTexts (p : String) (P : List (String × PartyMetrics)) :
    List (String × Origin) :=
  ((dget? p P).map (fun m => m.proposals_texts)).getD []

/-- A party's dedup fallacy map. -/
def paFallaciesTexts (p : String) (P : List (String × PartyMetrics)) :
    List (String × Origin) :=
  ((dget? p P).map (fun m => m.fallacies_texts)).getD []

lemma dget?_dset_self {α β : Type} [DecidableEq α] (k : α) (v : β) :
    ∀ m : List (α × β), dget? k (dset k v m) = some v
  | [] => by simp [dset, dget?]
  | (k', v') :: rest => by
    by_cases h : k' = k
    · subst h
      simp [dset, dget?]
    · simp only [dset, if_neg h, dget?, if_neg h]
      exact dget?_dset_self k v rest

lemma dget?_dset_ne {α β : Type} [DecidableEq α] (k k' : α) (v : β) (h : k' ≠ k) :
    ∀ m : List (α × β), dget? k' (dset k v m) = dget? k' m
  | [] => by
    simp only [dset, dget?]
    rw [if_neg (fun he : k = k' => h he.symm)]
  | (k₀, v₀) :: rest => by
    by_cases h₀ : k₀ = k
    · subst h₀
      simp only [dset, if_pos rfl, dget?]
      rw [if_neg (fun he : k₀ = k' => h he.symm), if_neg (fun he : k₀ = k' => h he.symm)]
    · simp only [dset, if_neg h₀, dget?]
      by_cases h₁ : k₀ = k'
      · rw [if_pos h₁, if_pos h₁]
      · rw [if_neg h₁, if_neg h₁]
        exact dget?_dset_ne k k' v h rest

lemma dget?_dset_isSome {α β : Type} [DecidableEq α] (k k' : α) (v : β)
    (m : List (α × β)) (h : (dget? k' m).isSome = true) :
    (dget? k' (dset k v m)).isSome = true := by
  by_cases he : k' = k
  · subst he
    rw [dget?_dset_self]
    rfl
  · rw [dget?_dset_ne k k' v he]
    exact h

lemma dset_of_dget?_none {α β : Type} [DecidableEq α] (k : α) (v : β) :
    ∀ m : List (α × β), dget? k m = none → dset k v m = m ++ [(k, v)]
  | [] => fun _ => rfl
  | (k₀, v₀) :: rest => by
    intro h
    simp only [dget?] at h
    by_cases h₀ : k₀ = k
    · rw [if_pos h₀] at h
      exact absurd h (by simp)
    · rw [if_neg h₀] at h
      simp only [dset, if_neg h₀, List.cons_append, List.cons.injEq, true_and]
      exact dset_of_dget?_none k v rest h

lemma mem_saddMem (x y : String) (l : List String) :
    y ∈ saddMem x l ↔ y ∈ l ∨ y = x := by
  unfold saddMem
  by_cases h : x ∈ l
  · rw [if_pos h]
    constructor
    · exact fun hy => Or.inl hy
    · rintro (hy | rfl)
      · exact hy
      · exact h
  · rw [if_neg h]
    simp

lemma nodup_saddMem (x : String) (l : List String) (h : l.Nodup) :
    (saddMem x l).Nodup := by
  unfold saddMem
  by_cases hx : x ∈ l
  · rw [if_pos hx]
    exact h
  · rw [if_neg hx]
    simp [List.nodup_append, h, hx]

/-! #### Definitional characterization of `process_intervention` -/

/-- The updated speaker record produced by one `process_intervention`
call. -/
def speakerUpd (iv : Intervention) (pmap : List (Option String × String × String))
    (d : String) (sm0 : SpeakerMetrics) : SpeakerMetrics :=
  { party := sm0.party,
    interventions := sm0.interventions + 1,
    claims := sm0.claims + (iv.claims.getD []).length,
    proposals := sm0.proposals + (iv.proposals.getD []).length,
    fallacies := sm0.fallacies + (iv.fallacies.getD []).length,
    claims_texts := foldTexts
      (claimsTuples (resolveSpeakerName pmap iv) iv.id d (fullTextOf iv) (iv.claims.getD []))
      sm0.claims_texts,
    proposals_texts := foldTexts
      (proposalsTuples (resolveSpeakerName pmap iv) iv.id d (fullTextOf iv)
        (iv.proposals.getD []))
      sm0.proposals_texts,
    fallacies_texts := foldTexts
      (fallacyTuples (resolveSpeakerName pmap iv) iv.id d (fullTextOf iv)
        (iv.fallacies.getD []))
      sm0.fallacies_texts }

/-- The updated party record produced by one `process_intervention`
call. -/
def partyUpd (iv : Intervention) (pmap : List (Option String × String × String))
    (d : String) (sk : String) (pm0 : PartyMetrics) : PartyMetrics :=
  { participants := saddMem sk pm0.participants,
    interventions := pm0.interventions + 1,
    claims := pm0.claims + (iv.claims.getD []).length,
    proposals := pm0.proposals + (iv.proposals.getD []).length,
    fallacies := pm0.fallacies + (iv.fallacies.getD []).length,
    claims_texts := foldTexts
      (claimsTuples (resolveSpeakerName pmap iv) iv.id d (fullTextOf iv) (iv.claims.getD []))
      pm0.claims_texts,
    proposals_texts := foldTexts
      (proposalsTuples (resolveSpeakerName pmap iv) iv.id d (fullTextOf iv)
        (iv.proposals.getD []))
      pm0.proposals_texts,
    fallacies_texts := foldTexts
      (fallacyTuples (resolveSpeakerName pmap iv) iv.id d (fullTextOf iv)
        (iv.fallacies.getD []))
      pm0.fallacies_texts }

lemma pi_speakers (iv : Intervention) (pmap : List (Option String × String × String))
    (S : List (String × SpeakerMetrics)) (P : List (String × PartyMetrics)) (d : String) :
    (process_intervention iv pmap S P d).2.1
      = dset (resolveSpeakerKey pmap iv)
          (speakerUpd iv pmap d
            ((dget? (resolveSpeakerKey pmap iv) S).getD
              (initSpeakerMetrics (resolveParty pmap iv)))) S := rfl

lemma pi_parties (iv : Intervention) (pmap : List (Option String × String × String))
    (S : List (String × SpeakerMetrics)) (P : List (String × PartyMetrics)) (d : String) :
    (process_intervention iv pmap S P d).2.2
      = dset (resolvePartyKey pmap iv)
          (partyUpd iv pmap d (resolveSpeakerKey pmap iv)
            ((dget? (resolvePartyKey pmap iv) P).getD initPartyMetrics)) P := rfl

lemma pi_info (iv : Intervention) (pmap : List (Option String × String × String))
    (S : List (String × SpeakerMetrics)) (P : List (String × PartyMetrics)) (d : String) :
    (process_intervention iv pmap S P d).1
      = ⟨iv.id, resolveSpeakerKey pmap iv, resolvePartyKey pmap iv, fullTextOf iv,
          (iv.claims.getD []).length, (iv.proposals.getD []).length,
          (iv.fallacies.getD []).length,
          claimsTuples (resolveSpeakerName pmap iv) iv.id d (fullTextOf iv) (iv.claims.getD []),
          proposalsTuples (resolveSpeakerName pmap iv) iv.id d (fullTextOf iv)
            (iv.proposals.getD []),
          fallacyTuples (resolveSpeakerName pmap iv) iv.id d (fullTextOf iv)
            (iv.fallacies.getD [])⟩ := rfl

lemma resolve_congr (pmap : List (Option String × String × String))
    (iv1 iv2 : Intervention) (h : iv2.participantId = iv1.participantId) :
    resolveSpeakerName pmap iv2 = resolveSpeakerName pmap iv1 ∧
      resolveSpeakerKey pmap iv2 = resolveSpeakerKey pmap iv1 ∧
      resolveParty pmap iv2 = resolveParty pmap iv1 ∧
      resolvePartyKey pmap iv2 = resolvePartyKey pmap iv1 := by
  refine ⟨?_, ?_, ?_, ?_⟩ <;>
    simp [resolveSpeakerName, resolveSpeakerKey, resolveParty, resolvePartyKey, h]

lemma truthy_some (s : String) : truthy (some s) = (s != "") := rfl

lemma claimsTuples_singleton (sn : String) (iid : Option String) (d full c : String)
    (hid : truthy iid = true) (hct : pyStrip c ≠ "")
    (h1 : sn ≠ "MODERADOR") (h2 : sn ≠ "DECLARACIONES") :
    claimsTuples sn iid d full [some c] = [⟨sn ++ ": " ++ pyStrip c, d, iid, full, sn⟩] := by
  have hcne : c ≠ "" := fun hc => hct (by rw [hc]; rfl)
  simp [claimsTuples, truthy_some, hcne, hct, hid, h1, h2]

/-- **C4.** Count and dedup map are independent accumulators: when the
same claim text occurs in two interventions of the same speaker, the
origin stored under the formatted text in the speaker's (and the party's)
dedup map is overwritten to the *second* intervention's
`(debate_id, intervention_id)` origin, while the claim counts at both
scopes are incremented for *both* occurrences (net `+2`), with nothing
removed on overwrite. -/
theorem claim_count_dedup_independent
    (S : List (String × SpeakerMetrics)) (P : List (String × PartyMetrics))
    (pmap : List (Option String × String × String)) (d c : String)
    (iv1 iv2 : Intervention)
    (hpid : iv2.participantId = iv1.participantId)
    (hn1 : resolveSpeakerName pmap iv1 ≠ "MODERADOR")
    (hn2 : resolveSpeakerName pmap iv1 ≠ "DECLARACIONES")
    (hid1 : truthy iv1.id = true) (hid2 : truthy iv2.id = true)
    (hc1 : iv1.claims = some [some c]) (hc2 : iv2.claims = some [some c])
    (hct : pyStrip c ≠ "") :
    dget? (resolveSpeakerName pmap iv1 ++ ": " ++ pyStrip c)
        (spClaimsTexts (resolveSpeakerKey pmap iv1)
          (process_intervention iv2 pmap (process_intervention iv1 pmap S P d).2.1
            (process_intervention iv1 pmap S P d).2.2 d).2.1)
      = some ⟨d, iv2.id, fullTextOf iv2⟩ ∧
    dget? (resolveSpeakerName pmap iv1 ++ ": " ++ pyStrip c)
        (paClaimsTexts (resolvePartyKey pmap iv1)
          (process_intervention iv2 pmap (process_intervention iv1 pmap S P d).2.1
            (process_intervention iv1 pmap S P d).2.2 d).2.2)
      = some ⟨d, iv2.id, fullTextOf iv2⟩ ∧
    spClaimsCnt (resolveSpeakerKey pmap iv1)
        (process_intervention iv2 pmap (process_intervention iv1 pmap S P d).2.1
          (process_intervention iv1 pmap S P d).2.2 d).2.1
      = spClaimsCnt (resolveSpeakerKey pmap iv1) S + 2 ∧
    paClaimsCnt (resolvePartyKey pmap iv1)
        (process_intervention iv2 pmap (process_intervention iv1 pmap S P d).2.1
          (process_intervention iv1 pmap S P d).2.2 d).2.2
      = paClaimsCnt (resolvePartyKey pmap iv1) P + 2 := by
  obtain ⟨hrn, hrk, hrp, hrpk⟩ := resolve_congr pmap iv1 iv2 hpid
  have hcts1 : claimsTuples (resolveSpeakerName pmap iv1) iv1.id d (fullTextOf iv1)
      (iv1.claims.getD [])
      = [⟨resolveSpeakerName pmap iv1 ++ ": " ++ pyStrip c, d, iv1.id, fullTextOf iv1,
          resolveSpeakerName pmap iv1⟩] := by
    rw [hc1]
    exact claimsTuples_singleton _ _ _ _ _ hid1 hct hn1 hn2
  have hcts2 : claimsTuples (resolveSpeakerName pmap iv2) iv2.id d (fullTextOf iv2)
      (iv2.claims.getD [])
      = [⟨resolveSpeakerName pmap iv1 ++ ": " ++ pyStrip c, d, iv2.id, fullTextOf iv2,
          resolveSpeakerName pmap iv1⟩] := by
    rw [hc2, hrn]
    exact claimsTuples_singleton _ _ _ _ _ hid2 hct hn1 hn2
  have hlen1 : (iv1.claims.getD []).length = 1 := by rw [hc1]; rfl
  have hlen2 : (iv2.claims.getD []).length = 1 := by rw [hc2]; rfl
  have hsp : (process_intervention iv2 pmap (process_intervention iv1 pmap S P d).2.1
      (process_intervention iv1 pmap S P d).2.2 d).2.1
      = dset (resolveSpeakerKey pmap iv1)
          (speakerUpd iv2 pmap d
            (speakerUpd iv1 pmap d
              ((dget? (resolveSpeakerKey pmap iv1) S).getD
                (initSpeakerMetrics (resolveParty pmap iv1)))))
          (process_intervention iv1 pmap S P d).2.1 := by
    rw [pi_speakers, hrk, pi_speakers, dget?_dset_self]
    rfl
  have hpa : (process_intervention iv2 pmap (process_intervention iv1 pmap S P d).2.1
      (process_intervention iv1 pmap S P d).2.2 d).2.2
      = dset (resolvePartyKey pmap iv1)
          (partyUpd iv2 pmap d (resolveSpeakerKey pmap iv1)
            (partyUpd iv1 pmap d (resolveSpeakerKey pmap iv1)
              ((dget? (resolvePartyKey pmap iv1) P).getD initPartyMetrics)))
          (process_intervention iv1 pmap S P d).2.2 := by
    rw [pi_parties, hrpk, hrk, pi_parties, dget?_dset_self]
    rfl
  refine ⟨?_, ?_, ?_, ?_⟩
  · rw [hsp]
    unfold spClaimsTexts
    rw [dget?_dset_self]
    simp only [Option.map_some', Option.getD_some]
    rw [show (speakerUpd iv2 pmap d (speakerUpd iv1 pmap d
        ((dget? (resolveSpeakerKey pmap iv1) S).getD
          (initSpeakerMetrics (resolveParty pmap iv1))))).claims_texts
      = foldTexts (claimsTuples (resolveSpeakerName pmap iv2) iv2.id d (fullTextOf iv2)
          (iv2.claims.getD []))
        (foldTexts (claimsTuples (resolveSpeakerName pmap iv1) iv1.id d (fullTextOf iv1)
            (iv1.claims.getD []))
          ((dget? (resolveSpeakerKey pmap iv1) S).getD
            (initSpeakerMetrics (resolveParty pmap iv1))).claims_texts) from rfl]
    rw [hcts1, hcts2]
    simp only [foldTexts, List.foldl]
    rw [dget?_dset_self]
  · rw [hpa]
    unfold paClaimsTexts
    rw [dget?_dset_self]
    simp only [Option.map_some', Option.getD_some]
    rw [show (partyUpd iv2 pmap d (resolveSpeakerKey pmap iv1)
        (partyUpd iv1 pmap d (resolveSpeakerKey pmap iv1)
          ((dget? (resolvePartyKey pmap iv1) P).getD initPartyMetrics))).claims_texts
      = foldTexts (claimsTuples (resolveSpeakerName pmap iv2) iv2.id d (fullTextOf iv2)
          (iv2.claims.getD []))
        (foldTexts (claimsTuples (resolveSpeakerName pmap iv1) iv1.id d (fullTextOf iv1)
            (iv1.claims.getD []))
          ((dget? (resolvePartyKey pmap iv1) P).getD initPartyMetrics).claims_texts) from rfl]
    rw [hcts1, hcts2]
    simp only [foldTexts, List.foldl]
    rw [dget?_dset_self]
  · rw [hsp]
    unfold spClaimsCnt
    rw [dget?_dset_self]
    simp only [Option.map_some', Option.getD_some]
    rw [show (speakerUpd iv2 pmap d (speakerUpd iv1 pmap d
        ((dget? (resolveSpeakerKey pmap iv1) S).getD
          (initSpeakerMetrics (resolveParty pmap iv1))))).claims
      = (((dget? (resolveSpeakerKey pmap iv1) S).getD
            (initSpeakerMetrics (resolveParty pmap iv1))).claims
          + (iv1.claims.getD []).length) + (iv2.claims.getD []).length from rfl]
    rw [hlen1, hlen2]
    cases hs : dget? (resolveSpeakerKey pmap iv1) S <;>
      simp [hs, initSpeakerMetrics]
  · rw [hpa]
    unfold paClaimsCnt
    rw [dget?_dset_self]
    simp only [Option.map_some', Option.getD_some]
    rw [show (partyUpd iv2 pmap d (resolveSpeakerKey pmap iv1)
        (partyUpd iv1 pmap d (resolveSpeakerKey pmap iv1)
          ((dget? (resolvePartyKey pmap iv1) P).getD initPartyMetrics))).claims
      = (((dget? (resolvePartyKey pmap iv1) P).getD initPartyMetrics).claims
          + (iv1.claims.getD []).length) + (iv2.claims.getD []).length from rfl]
    rw [hlen1, hlen2]
    cases hs : dget? (resolvePartyKey pmap iv1) P <;>
      simp [hs, initPartyMetrics]

/-- Participants table of the running example: one speaker `Ana` of party
`PartyX`. -/
def exPmap : List (Option String × String × String) :=
  parse_participants [⟨some "p0", some "Ana", some "PartyX"⟩]

/-- First example intervention of `Ana`, claim `"We need reform"`. -/
def exIv1 : Intervention :=
  ⟨some "i001", some "p0", none, some [some "We need reform"], none, none⟩

/-- Second example intervention of `Ana`, same claim text. -/
def exIv2 : Intervention :=
  ⟨some "i002", some "p0", none, some [some "We need reform"], none, none⟩

/-- Witness for C4 at the `"Ana: We need reform"` example: count 2, origin
overwritten to intervention `i002`. -/
theorem claim_count_dedup_independent_witness :
    (exIv2.participantId = exIv1.participantId ∧
      resolveSpeakerName exPmap exIv1 ≠ "MODERADOR" ∧
      resolveSpeakerName exPmap exIv1 ≠ "DECLARACIONES" ∧
      truthy exIv1.id = true ∧ truthy exIv2.id = true ∧
      exIv1.claims = some [some "We need reform"] ∧
      exIv2.claims = some [some "We need reform"] ∧
      pyStrip "We need reform" ≠ "") ∧
    (dget? (resolveSpeakerName exPmap exIv1 ++ ": " ++ pyStrip "We need reform")
        (spClaimsTexts (resolveSpeakerKey exPmap exIv1)
          (process_intervention exIv2 exPmap
            (process_intervention exIv1 exPmap [] [] "2019-04-22").2.1
            (process_intervention exIv1 exPmap [] [] "2019-04-22").2.2 "2019-04-22").2.1)
      = some ⟨"2019-04-22", exIv2.id, fullTextOf exIv2⟩ ∧
    dget? (resolveSpeakerName exPmap exIv1 ++ ": " ++ pyStrip "We need reform")
        (paClaimsTexts (resolvePartyKey exPmap exIv1)
          (process_intervention exIv2 exPmap
            (process_intervention exIv1 exPmap [] [] "2019-04-22").2.1
            (process_intervention exIv1 exPmap [] [] "2019-04-22").2.2 "2019-04-22").2.2)
      = some ⟨"2019-04-22", exIv2.id, fullTextOf exIv2⟩ ∧
    spClaimsCnt (resolveSpeakerKey exPmap exIv1)
        (process_intervention exIv2 exPmap
          (process_intervention exIv1 exPmap [] [] "2019-04-22").2.1
          (process_intervention exIv1 exPmap [] [] "2019-04-22").2.2 "2019-04-22").2.1
      = spClaimsCnt (resolveSpeakerKey exPmap exIv1) [] + 2 ∧
    paClaimsCnt (resolvePartyKey exPmap exIv1)
        (process_intervention exIv2 exPmap
          (process_intervention exIv1 exPmap [] [] "2019-04-22").2.1
          (process_intervention exIv1 exPmap [] [] "2019-04-22").2.2 "2019-04-22").2.2
      = paClaimsCnt (resolvePartyKey exPmap exIv1) [] + 2) :=
  ⟨⟨rfl, by decide, by decide, rfl, rfl, rfl, rfl, by decide⟩,
    claim_count_dedup_independent [] [] exPmap "2019-04-22" "We need reform" exIv1 exIv2
      rfl (by decide) (by decide) rfl rfl rfl rfl (by decide)⟩

lemma claimsTuples_pseudo_nil (sn : String) (iid : Option String) (d full : String)
    (cl : List (Option String)) (h : sn = "MODERADOR" ∨ sn = "DECLARACIONES") :
    claimsTuples sn iid d full cl = [] := by
  rw [claimsTuples, List.filterMap_eq_nil_iff]
  intro c _
  rcases h with h | h <;> subst h <;> simp

lemma proposalsTuples_pseudo_nil (sn : String) (iid : Option String) (d full : String)
    (pl : List (Option String)) (h : sn = "MODERADOR" ∨ sn = "DECLARACIONES") :
    proposalsTuples sn iid d full pl = [] := by
  rw [proposalsTuples, List.filterMap_eq_nil_iff]
  intro p _
  rcases h with h | h <;> subst h <;> simp

lemma foldTexts_nil (m : List (String × Origin)) : foldTexts [] m = m := rfl

lemma dget?_foldTexts_isSome (k : String) :
    ∀ (ts : List TextEntry) (m : List (String × Origin)),
      (dget? k m).isSome = true → (dget? k (foldTexts ts m)).isSome = true
  | [], _ => fun h => h
  | t :: ts, m => fun h => by
    rw [show foldTexts (t :: ts) m
          = foldTexts ts (dset t.formatted ⟨t.d_id, t.i_id, t.full_text⟩ m) from rfl]
    exact dget?_foldTexts_isSome k ts _ (dget?_dset_isSome _ k _ m h)

lemma dget?_foldTexts_mem :
    ∀ (ts : List TextEntry) (m : List (String × Origin)) (t : TextEntry), t ∈ ts →
      (dget? t.formatted (foldTexts ts m)).isSome = true
  | [], _, _, h => absurd h (by simp)
  | t' :: ts, m, t, h => by
    rw [show foldTexts (t' :: ts) m
          = foldTexts ts (dset t'.formatted ⟨t'.d_id, t'.i_id, t'.full_text⟩ m) from rfl]
    rcases List.mem_cons.mp h with rfl | hmem
    · exact dget?_foldTexts_isSome t.formatted ts _
        (by rw [dget?_dset_self]; rfl)
    · exact dget?_foldTexts_mem ts _ t hmem

/-- **C9.** Claims and proposals of the `MODERADOR` / `DECLARACIONES`
pseudo-speakers are excluded from the deduplicated text→origin maps at
every scope (the collected tuple lists are empty, so the speaker-, party-
and debate-scope maps are untouched), while fallacies of those
pseudo-speakers are *not* excluded: every fallacy tuple is still recorded
into the speaker's and party's fallacy text maps. -/
theorem moderator_pseudo_speaker_exclusion
    (S : List (String × SpeakerMetrics)) (P : List (String × PartyMetrics))
    (pmap : List (Option String × String × String)) (d : String) (iv : Intervention)
    (hmod : resolveSpeakerName pmap iv = "MODERADOR" ∨
      resolveSpeakerName pmap iv = "DECLARACIONES") :
    (process_intervention iv pmap S P d).1.claims_texts = [] ∧
    (process_intervention iv pmap S P d).1.proposals_texts = [] ∧
    (∀ s, spClaimsTexts s (process_intervention iv pmap S P d).2.1 = spClaimsTexts s S) ∧
    (∀ s, spProposalsTexts s (process_intervention iv pmap S P d).2.1
      = spProposalsTexts s S) ∧
    (∀ p, paClaimsTexts p (process_intervention iv pmap S P d).2.2 = paClaimsTexts p P) ∧
    (∀ p, paProposalsTexts p (process_intervention iv pmap S P d).2.2
      = paProposalsTexts p P) ∧
    (process_intervention iv pmap S P d).1.fallacies_texts
      = fallacyTuples (resolveSpeakerName pmap iv) iv.id d (fullTextOf iv)
          (iv.fallacies.getD []) ∧
    (∀ t ∈ (process_intervention iv pmap S P d).1.fallacies_texts,
      (dget? t.formatted (spFallaciesTexts (resolveSpeakerKey pmap iv)
          (process_intervention iv pmap S P d).2.1)).isSome = true ∧
      (dget? t.formatted (paFallaciesTexts (resolvePartyKey pmap iv)
          (process_intervention iv pmap S P d).2.2)).isSome = true) := by
  have hcts : claimsTuples (resolveSpeakerName pmap iv) iv.id d (fullTextOf iv)
      (iv.claims.getD []) = [] := claimsTuples_pseudo_nil _ _ _ _ _ hmod
  have hpts : proposalsTuples (resolveSpeakerName pmap iv) iv.id d (fullTextOf iv)
      (iv.proposals.getD []) = [] := proposalsTuples_pseudo_nil _ _ _ _ _ hmod
  refine ⟨?_, ?_, ?_, ?_, ?_, ?_, ?_, ?_⟩
  · rw [pi_info]
    exact hcts
  · rw [pi_info]
    exact hpts
  · intro s
    rw [pi_speakers]
    by_cases hs : s = resolveSpeakerKey pmap iv
    · subst hs
      unfold spClaimsTexts
      rw [dget?_dset_self]
      simp only [Option.map_some', Option.getD_some]
      rw [show (speakerUpd iv pmap d ((dget? (resolveSpeakerKey pmap iv) S).getD
            (initSpeakerMetrics (resolveParty pmap iv)))).claims_texts
          = foldTexts (claimsTuples (resolveSpeakerName pmap iv) iv.id d (fullTextOf iv)
              (iv.claims.getD []))
            ((dget? (resolveSpeakerKey pmap iv) S).getD
              (initSpeakerMetrics (resolveParty pmap iv))).claims_texts
          from rfl]
      rw [hcts, foldTexts_nil]
      cases hget : dget? (resolveSpeakerKey pmap iv) S <;> simp [hget, initSpeakerMetrics]
    · unfold spClaimsTexts
      rw [dget?_dset_ne _ _ _ hs]
  · intro s
    rw [pi_speakers]
    by_cases hs : s = resolveSpeakerKey pmap iv
    · subst hs
      unfold spProposalsTexts
      rw [dget?_dset_self]
      simp only [Option.map_some', Option.getD_some]
      rw [show (speakerUpd iv pmap d ((dget? (resolveSpeakerKey pmap iv) S).getD
            (initSpeakerMetrics (resolveParty pmap iv)))).proposals_texts
          = foldTexts (proposalsTuples (resolveSpeakerName pmap iv) iv.id d (fullTextOf iv)
              (iv.proposals.getD []))
            ((dget? (resolveSpeakerKey pmap iv) S).getD
              (initSpeakerMetrics (resolveParty pmap iv))).proposals_texts
          from rfl]
      rw [hpts, foldTexts_nil]
      cases hget : dget? (resolveSpeakerKey pmap iv) S <;> simp [hget, initSpeakerMetrics]
    · unfold spProposalsTexts
      rw [dget?_dset_ne _ _ _ hs]
  · intro p
    rw [pi_parties]
    by_cases hp : p = resolvePartyKey pmap iv
    · subst hp
      unfold paClaimsTexts
      rw [dget?_dset_self]
      simp only [Option.map_some', Option.getD_some]
      rw [show (partyUpd iv pmap d (resolveSpeakerKey pmap iv)
            ((dget? (resolvePartyKey pmap iv) P).getD initPartyMetrics)).claims_texts
          = foldTexts (claimsTuples (resolveSpeakerName pmap iv) iv.id d (fullTextOf iv)
              (iv.claims.getD []))
            ((dget? (resolvePartyKey pmap iv) P).getD initPartyMetrics).claims_texts from rfl]
      rw [hcts, foldTexts_nil]
      cases hget : dget? (resolvePartyKey pmap iv) P <;> simp [hget, initPartyMetrics]
    · unfold paClaimsTexts
      rw [dget?_dset_ne _ _ _ hp]
  · intro p
    rw [pi_parties]
    by_cases hp : p = resolvePartyKey pmap iv
    · subst hp
      unfold paProposalsTexts
      rw [dget?_dset_self]
      simp only [Option.map_some', Option.getD_some]
      rw [show (partyUpd iv pmap d (resolveSpeakerKey pmap iv)
            ((dget? (resolvePartyKey pmap iv) P).getD initPartyMetrics)).proposals_texts
          = foldTexts (proposalsTuples (resolveSpeakerName pmap iv) iv.id d (fullTextOf iv)
              (iv.proposals.getD []))
            ((dget? (resolvePartyKey pmap iv) P).getD initPartyMetrics).proposals_texts from rfl]
      rw [hpts, foldTexts_nil]
      cases hget : dget? (resolvePartyKey pmap iv) P <;> simp [hget, initPartyMetrics]
    · unfold paProposalsTexts
      rw [dget?_dset_ne _ _ _ hp]
  · rw [pi_info]
  · intro t ht
    rw [pi_info] at ht
    constructor
    · rw [pi_speakers]
      unfold spFallaciesTexts
      rw [dget?_dset_self]
      simp only [Option.map_some', Option.getD_some]
      exact dget?_foldTexts_mem _ _ t ht
    · rw [pi_parties]
      unfold paFallaciesTexts
      rw [dget?_dset_self]
      simp only [Option.map_some', Option.getD_some]
      exact dget?_foldTexts_mem _ _ t ht

/-- Participants table with the moderator pseudo-speaker. -/
def exModPmap : List (Option String × String × String) :=
  parse_participants [⟨some "p9", some "MODERADOR", none⟩]

/-- A moderator intervention carrying one claim, one proposal and one
fallacy. -/
def exModIv : Intervention :=
  ⟨some "i005", some "p9", none, some [some "A claim"], some [some "A proposal"],
    some [⟨some "ad hominem", some "A fallacy"⟩]⟩

/-- Witness for C9 at a concrete moderator intervention. -/
theorem moderator_pseudo_speaker_exclusion_witness :
    (resolveSpeakerName exModPmap exModIv = "MODERADOR" ∨
      resolveSpeakerName exModPmap exModIv = "DECLARACIONES") ∧
    (process_intervention exModIv exModPmap [] [] "2019-04-22").1.claims_texts = [] ∧
    (process_intervention exModIv exModPmap [] [] "2019-04-22").1.proposals_texts = [] ∧
    (∀ t ∈ (process_intervention exModIv exModPmap [] [] "2019-04-22").1.fallacies_texts,
      (dget? t.formatted (spFallaciesTexts (resolveSpeakerKey exModPmap exModIv)
          (process_intervention exModIv exModPmap [] [] "2019-04-22").2.1)).isSome = true ∧
      (dget? t.formatted (paFallaciesTexts (resolvePartyKey exModPmap exModIv)
          (process_intervention exModIv exModPmap [] [] "2019-04-22").2.2)).isSome = true) := by
  have h := moderator_pseudo_speaker_exclusion [] [] exModPmap "2019-04-22" exModIv
    (Or.inl (by decide))
  exact ⟨Or.inl (by decide), h.1, h.2.1, h.2.2.2.2.2.2.2⟩

/-! #### C3: consistency of intervention totals across scopes -/

/-- The (speaker key, party key) pair an intervention contributes under a
given participants table. -/
def interventionKey (pmap : List (Option String × String × String))
    (iv : Intervention) : String × String :=
  (resolveSpeakerKey pmap iv, resolvePartyKey pmap iv)

/-- All interventions of a document, in processing order. -/
def docIvs (d : Debate) : List Intervention :=
  d.blocks.flatMap (fun b => b.interventions.getD [])

/-- The (speaker key, party key) pairs contributed by one document. -/
def docKeys (d : Debate) : List (String × String) :=
  (docIvs d).map (interventionKey (parse_participants d.participants))

/-- The (speaker key, party key) pairs contributed by a run, in order. -/
def allKeys (docs : List (Debate × String)) : List (String × String) :=
  docs.flatMap (fun doc => docKeys doc.1)

/-- The debate id under which a document is aggregated. -/
def debateIdOf (doc : Debate × String) : String :=
  doc.1.date.getD doc.2

/-- Total number of interventions of a document. -/
def numIvs (d : Debate) : Nat :=
  (d.blocks.map (fun b => (b.interventions.getD []).length)).sum

/-- The speaker/party accumulator trajectory of a sequence of
interventions. -/
def foldIvs (ivs : List Intervention) (pmap : List (Option String × String × String))
    (d : String)
    (sp : List (String × SpeakerMetrics) × List (String × PartyMetrics)) :
    List (String × SpeakerMetrics) × List (String × PartyMetrics) :=
  ivs.foldl (fun sp iv =>
    ((process_intervention iv pmap sp.1 sp.2 d).2.1,
     (process_intervention iv pmap sp.1 sp.2 d).2.2)) sp

lemma spInterCnt_pi (iv : Intervention) (pmap : List (Option String × String × String))
    (S : List (String × SpeakerMetrics)) (P : List (String × PartyMetrics))
    (d : String) (s : String) :
    spInterCnt s (process_intervention iv pmap S P d).2.1
      = spInterCnt s S + (if s = resolveSpeakerKey pmap iv then 1 else 0) := by
  rw [pi_speakers]
  by_cases h : s = resolveSpeakerKey pmap iv
  · rw [h]
    unfold spInterCnt
    rw [dget?_dset_self]
    cases hg : dget? (resolveSpeakerKey pmap iv) S <;>
      simp [hg, speakerUpd, initSpeakerMetrics]
  · unfold spInterCnt
    rw [dget?_dset_ne _ _ _ h]
    simp [h]

lemma paInterCnt_pi (iv : Intervention) (pmap : List (Option String × String × String))
    (S : List (String × SpeakerMetrics)) (P : List (String × PartyMetrics))
    (d : String) (p : String) :
    paInterCnt p (process_intervention iv pmap S P d).2.2
      = paInterCnt p P + (if p = resolvePartyKey pmap iv then 1 else 0) := by
  rw [pi_parties]
  by_cases h : p = resolvePartyKey pmap iv
  · rw [h]
    unfold paInterCnt
    rw [dget?_dset_self]
    cases hg : dget? (resolvePartyKey pmap iv) P <;>
      simp [hg, partyUpd, initPartyMetrics]
  · unfold paInterCnt
    rw [dget?_dset_ne _ _ _ h]
    simp [h]

lemma paParticipants_pi (iv : Intervention) (pmap : List (Option String × String × String))
    (S : List (String × SpeakerMetrics)) (P : List (String × PartyMetrics))
    (d : String) (p : String) :
    paParticipants p (process_intervention iv pmap S P d).2.2
      = if p = resolvePartyKey pmap iv
        then saddMem (resolveSpeakerKey pmap iv) (paParticipants p P)
        else paParticipants p P := by
  rw [pi_parties]
  by_cases h : p = resolvePartyKey pmap iv
  · rw [h]
    unfold paParticipants
    rw [dget?_dset_self]
    rw [if_pos rfl]
    cases hg : dget? (resolvePartyKey pmap iv) P <;>
      simp [hg, partyUpd, initPartyMetrics]
  · unfold paParticipants
    rw [dget?_dset_ne _ _ _ h, if_neg h]

lemma foldIvs_spInterCnt :
    ∀ (ivs : List Intervention) (pmap : List (Option String × String × String))
      (d : String) (sp : _ × _) (s : String),
      spInterCnt s (foldIvs ivs pmap d sp).1
        = spInterCnt s sp.1
          + (ivs.map (interventionKey pmap)).countP (fun k => k.1 == s)
  | [], _, _, _, _ => by simp [foldIvs]
  | iv :: ivs, pmap, d, sp, s => by
    rw [show foldIvs (iv :: ivs) pmap d sp
        = foldIvs ivs pmap d ((process_intervention iv pmap sp.1 sp.2 d).2.1,
            (process_intervention iv pmap sp.1 sp.2 d).2.2) from rfl]
    rw [foldIvs_spInterCnt ivs pmap d _ s]
    rw [show ((process_intervention iv pmap sp.1 sp.2 d).2.1,
        (process_intervention iv pmap sp.1 sp.2 d).2.2).1
        = (process_intervention iv pmap sp.1 sp.2 d).2.1 from rfl]
    rw [spInterCnt_pi]
    rw [List.map_cons, List.countP_cons]
    have hk : (interventionKey pmap iv).1 = resolveSpeakerKey pmap iv := rfl
    by_cases h : s = resolveSpeakerKey pmap iv
    · rw [if_pos h, hk, if_pos (beq_iff_eq.mpr h.symm)]
      omega
    · rw [if_neg h, hk, if_neg (fun hb => h (beq_iff_eq.mp hb).symm)]
      omega

lemma foldIvs_paInterCnt :
    ∀ (ivs : List Intervention) (pmap : List (Option String × String × String))
      (d : String) (sp : _ × _) (p : String),
      paInterCnt p (foldIvs ivs pmap d sp).2
        = paInterCnt p sp.2
          + (ivs.map (interventionKey pmap)).countP (fun k => k.2 == p)
  | [], _, _, _, _ => by simp [foldIvs]
  | iv :: ivs, pmap, d, sp, p => by
    rw [show foldIvs (iv :: ivs) pmap d sp
        = foldIvs ivs pmap d ((process_intervention iv pmap sp.1 sp.2 d).2.1,
            (process_intervention iv pmap sp.1 sp.2 d).2.2) from rfl]
    rw [foldIvs_paInterCnt ivs pmap d _ p]
    rw [show ((process_intervention iv pmap sp.1 sp.2 d).2.1,
        (process_intervention iv pmap sp.1 sp.2 d).2.2).2
        = (process_intervention iv pmap sp.1 sp.2 d).2.2 from rfl]
    rw [paInterCnt_pi]
    rw [List.map_cons, List.countP_cons]
    have hk : (interventionKey pmap iv).2 = resolvePartyKey pmap iv := rfl
    by_cases h : p = resolvePartyKey pmap iv
    · rw [if_pos h, hk, if_pos (beq_iff_eq.mpr h.symm)]
      omega
    · rw [if_neg h, hk, if_neg (fun hb => h (beq_iff_eq.mp hb).symm)]
      omega

lemma foldIvs_parts_mem :
    ∀ (ivs : List Intervention) (pmap : List (Option String × String × String))
      (d : String) (sp : _ × _) (p s : String),
      (s ∈ paParticipants p (foldIvs ivs pmap d sp).2
        ↔ s ∈ paParticipants p sp.2 ∨ (s, p) ∈ ivs.map (interventionKey pmap))
  | [], _, _, _, _, _ => by simp [foldIvs]
  | iv :: ivs, pmap, d, sp, p, s => by
    rw [show foldIvs (iv :: ivs) pmap d sp
        = foldIvs ivs pmap d ((process_intervention iv pmap sp.1 sp.2 d).2.1,
            (process_intervention iv pmap sp.1 sp.2 d).2.2) from rfl]
    rw [foldIvs_parts_mem ivs pmap d _ p s]
    rw [show ((process_intervention iv pmap sp.1 sp.2 d).2.1,
        (process_intervention iv pmap sp.1 sp.2 d).2.2).2
        = (process_intervention iv pmap sp.1 sp.2 d).2.2 from rfl]
    rw [paParticipants_pi]
    rw [List.map_cons, List.mem_cons]
    have hk : (interventionKey pmap iv)
        = (resolveSpeakerKey pmap iv, resolvePartyKey pmap iv) := rfl
    rw [hk]
    by_cases h : p = resolvePartyKey pmap iv
    · rw [if_pos h]
      rw [mem_saddMem]
      constructor
      · rintro ((hs | rfl) | hrest)
        · exact Or.inl hs
        · exact Or.inr (Or.inl (by rw [h]))
        · exact Or.inr (Or.inr hrest)
      · rintro (hs | (heq | hrest))
        · exact Or.inl (Or.inl hs)
        · exact Or.inl (Or.inr (congrArg Prod.fst heq))
        · exact Or.inr hrest
    · rw [if_neg h]
      constructor
      · rintro (hs | hrest)
        · exact Or.inl hs
        · exact Or.inr (Or.inr hrest)
      · rintro (hs | (heq | hrest))
        · exact Or.inl hs
        · exact absurd (congrArg Prod.snd heq) h
        · exact Or.inr hrest

lemma foldIvs_parts_nodup :
    ∀ (ivs : List Intervention) (pmap : List (Option String × String × String))
      (d : String) (sp : _ × _),
      (∀ p, (paParticipants p sp.2).Nodup) →
      ∀ p, (paParticipants p (foldIvs ivs pmap d sp).2).Nodup
  | [], _, _, _ => fun h => h
  | iv :: ivs, pmap, d, sp => fun h => by
    rw [show foldIvs (iv :: ivs) pmap d sp
        = foldIvs ivs pmap d ((process_intervention iv pmap sp.1 sp.2 d).2.1,
            (process_intervention iv pmap sp.1 sp.2 d).2.2) from rfl]
    apply foldIvs_parts_nodup ivs pmap d _
    intro p
    rw [show ((process_intervention iv pmap sp.1 sp.2 d).2.1,
        (process_intervention iv pmap sp.1 sp.2 d).2.2).2
        = (process_intervention iv pmap sp.1 sp.2 d).2.2 from rfl]
    rw [paParticipants_pi]
    by_cases hp : p = resolvePartyKey pmap iv
    · rw [if_pos hp]
      exact nodup_saddMem _ _ (h p)
    · rw [if_neg hp]
      exact h p

lemma foldIvs_append (l₁ l₂ : List Intervention)
    (pmap : List (Option String × String × String)) (d : String) (sp : _ × _) :
    foldIvs (l₁ ++ l₂) pmap d sp = foldIvs l₂ pmap d (foldIvs l₁ pmap d sp) := by
  unfold foldIvs
  rw [List.foldl_append]

lemma blockFold_sp_pa :
    ∀ (ivs : List Intervention) (pmap : List (Option String × String × String))
      (d : String) (acc : List InterInfo × GlobalMetrics ×
        List (String × SpeakerMetrics) × List (String × PartyMetrics)),
      ((ivs.foldl (blockStep pmap d) acc).2.2.1, (ivs.foldl (blockStep pmap d) acc).2.2.2)
        = foldIvs ivs pmap d (acc.2.2.1, acc.2.2.2)
  | [], _, _, _ => rfl
  | iv :: ivs, pmap, d, acc => by
    rw [List.foldl_cons, blockFold_sp_pa ivs pmap d (blockStep pmap d acc iv)]
    rfl

lemma process_block_sp_pa (b : BlockNode)
    (pmap : List (Option String × String × String)) (g : GlobalMetrics)
    (S : List (String × SpeakerMetrics)) (P : List (String × PartyMetrics)) (d : String) :
    ((process_block b pmap g S P d).2.2.1, (process_block b pmap g S P d).2.2.2)
      = foldIvs (b.interventions.getD []) pmap d (S, P) := by
  cases hb : b.interventions with
  | none =>
    simp only [process_block, hb]
    rfl
  | some ivs =>
    simp only [process_block, hb, Option.getD_some]
    exact blockFold_sp_pa ivs pmap d ([], g, S, P)

lemma xmlFold_sp_pa :
    ∀ (bs : List BlockNode) (pmap : List (Option String × String × String))
      (d : String) (acc : List InterInfo × GlobalMetrics ×
        List (String × SpeakerMetrics) × List (String × PartyMetrics)),
      ((bs.foldl (xmlStep pmap d) acc).2.2.1, (bs.foldl (xmlStep pmap d) acc).2.2.2)
        = foldIvs (bs.flatMap (fun b => b.interventions.getD [])) pmap d
            (acc.2.2.1, acc.2.2.2)
  | [], _, _, _ => rfl
  | b :: bs, pmap, d, acc => by
    rw [List.foldl_cons, xmlFold_sp_pa bs pmap d (xmlStep pmap d acc b)]
    have hpair : ((xmlStep pmap d acc b).2.2.1, (xmlStep pmap d acc b).2.2.2)
        = foldIvs (b.interventions.getD []) pmap d (acc.2.2.1, acc.2.2.2) :=
      process_block_sp_pa b pmap acc.2.1 acc.2.2.1 acc.2.2.2 d
    rw [hpair, List.flatMap_cons, foldIvs_append]

lemma process_xml_sp_pa (d : Debate) (path : String) (g : GlobalMetrics)
    (S : List (String × SpeakerMetrics)) (P : List (String × PartyMetrics)) :
    ((process_xml d path g S P).2.2.1, (process_xml d path g S P).2.2.2)
      = foldIvs (docIvs d) (parse_participants d.participants) (d.date.getD path) (S, P) :=
  xmlFold_sp_pa d.blocks (parse_participants d.participants) (d.date.getD path)
    ([], { g with debates := g.debates + 1, blocks := g.blocks + d.blocks.length }, S, P)

/-- The speaker/party trajectory contributed by one whole document. -/
def docFoldStep
    (sp : List (String × SpeakerMetrics) × List (String × PartyMetrics))
    (doc : Debate × String) :
    List (String × SpeakerMetrics) × List (String × PartyMetrics) :=
  foldIvs (docIvs doc.1) (parse_participants doc.1.participants) (debateIdOf doc) sp

lemma mainFold_sp_pa :
    ∀ (docs : List (Debate × String)) (acc : GlobalMetrics ×
        List (String × SpeakerMetrics) × List (String × PartyMetrics)),
      ((docs.foldl mainStep acc).2.1, (docs.foldl mainStep acc).2.2)
        = docs.foldl docFoldStep (acc.2.1, acc.2.2)
  | [], _ => rfl
  | doc :: docs, acc => by
    rw [List.foldl_cons, List.foldl_cons, mainFold_sp_pa docs (mainStep acc doc)]
    have hpair : ((mainStep acc doc).2.1, (mainStep acc doc).2.2)
        = docFoldStep (acc.2.1, acc.2.2) doc :=
      process_xml_sp_pa doc.1 doc.2 acc.1 acc.2.1 acc.2.2
    rw [hpair]

lemma docsFold_spInterCnt :
    ∀ (docs : List (Debate × String)) (sp : _ × _) (s : String),
      spInterCnt s (docs.foldl docFoldStep sp).1
        = spInterCnt s sp.1 + (allKeys docs).countP (fun k => k.1 == s)
  | [], _, _ => by simp [allKeys]
  | doc :: docs, sp, s => by
    rw [List.foldl_cons, docsFold_spInterCnt docs (docFoldStep sp doc) s]
    rw [show (docFoldStep sp doc).1
        = (foldIvs (docIvs doc.1) (parse_participants doc.1.participants)
            (debateIdOf doc) sp).1 from rfl]
    rw [foldIvs_spInterCnt]
    rw [show allKeys (doc :: docs) = docKeys doc.1 ++ allKeys docs from
      List.flatMap_cons _ _ _]
    rw [List.countP_append]
    rw [show docKeys doc.1 = (docIvs doc.1).map
        (interventionKey (parse_participants doc.1.participants)) from rfl]
    omega

lemma docsFold_paInterCnt :
    ∀ (docs : List (Debate × String)) (sp : _ × _) (p : String),
      paInterCnt p (docs.foldl docFoldStep sp).2
        = paInterCnt p sp.2 + (allKeys docs).countP (fun k => k.2 == p)
  | [], _, _ => by simp [allKeys]
  | doc :: docs, sp, p => by
    rw [List.foldl_cons, docsFold_paInterCnt docs (docFoldStep sp doc) p]
    rw [show (docFoldStep sp doc).2
        = (foldIvs (docIvs doc.1) (parse_participants doc.1.participants)
            (debateIdOf doc) sp).2 from rfl]
    rw [foldIvs_paInterCnt]
    rw [show allKeys (doc :: docs) = docKeys doc.1 ++ allKeys docs from
      List.flatMap_cons _ _ _]
    rw [List.countP_append]
    rw [show docKeys doc.1 = (docIvs doc.1).map
        (interventionKey (parse_participants doc.1.participants)) from rfl]
    omega

lemma docsFold_parts_mem :
    ∀ (docs : List (Debate × String)) (sp : _ × _) (p s : String),
      (s ∈ paParticipants p (docs.foldl docFoldStep sp).2
        ↔ s ∈ paParticipants p sp.2 ∨ (s, p) ∈ allKeys docs)
  | [], _, _, _ => by simp [allKeys]
  | doc :: docs, sp, p, s => by
    rw [List.foldl_cons, docsFold_parts_mem docs (docFoldStep sp doc) p s]
    rw [show (docFoldStep sp doc).2
        = (foldIvs (docIvs doc.1) (parse_participants doc.1.participants)
            (debateIdOf doc) sp).2 from rfl]
    rw [foldIvs_parts_mem]
    rw [show allKeys (doc :: docs) = docKeys doc.1 ++ allKeys docs from
      List.flatMap_cons _ _ _]
    rw [List.mem_append]
    rw [show docKeys doc.1 = (docIvs doc.1).map
        (interventionKey (parse_participants doc.1.participants)) from rfl]
    tauto

lemma docsFold_parts_nodup :
    ∀ (docs : List (Debate × String)) (sp : _ × _),
      (∀ p, (paParticipants p sp.2).Nodup) →
      ∀ p, (paParticipants p (docs.foldl docFoldStep sp).2).Nodup
  | [], _ => fun h => h
  | doc :: docs, sp => fun h => by
    rw [List.foldl_cons]
    exact docsFold_parts_nodup docs (docFoldStep sp doc)
      (foldIvs_parts_nodup _ _ _ _ h)

lemma mainAggregate_sp_pa (docs : List (Debate × String)) :
    ((mainAggregate docs).2.1, (mainAggregate docs).2.2)
      = docs.foldl docFoldStep ([], []) :=
  mainFold_sp_pa docs (initGlobalMetrics, [], [])

lemma final_spInterCnt (docs : List (Debate × String)) (s : String) :
    spInterCnt s (mainAggregate docs).2.1
      = (allKeys docs).countP (fun k => k.1 == s) := by
  have h := congrArg Prod.fst (mainAggregate_sp_pa docs)
  rw [show ((mainAggregate docs).2.1, (mainAggregate docs).2.2).1
      = (mainAggregate docs).2.1 from rfl] at h
  rw [h, docsFold_spInterCnt docs ([], []) s]
  simp [spInterCnt, dget?]

lemma final_paInterCnt (docs : List (Debate × String)) (p : String) :
    paInterCnt p (mainAggregate docs).2.2
      = (allKeys docs).countP (fun k => k.2 == p) := by
  have h := congrArg Prod.snd (mainAggregate_sp_pa docs)
  rw [show ((mainAggregate docs).2.1, (mainAggregate docs).2.2).2
      = (mainAggregate docs).2.2 from rfl] at h
  rw [h, docsFold_paInterCnt docs ([], []) p]
  simp [paInterCnt, dget?]

lemma final_parts_mem (docs : List (Debate × String)) (p s : String) :
    s ∈ paParticipants p (mainAggregate docs).2.2 ↔ (s, p) ∈ allKeys docs := by
  have h := congrArg Prod.snd (mainAggregate_sp_pa docs)
  rw [show ((mainAggregate docs).2.1, (mainAggregate docs).2.2).2
      = (mainAggregate docs).2.2 from rfl] at h
  rw [h, docsFold_parts_mem docs ([], []) p s]
  simp [paParticipants, dget?]

lemma final_parts_nodup (docs : List (Debate × String)) (p : String) :
    (paParticipants p (mainAggregate docs).2.2).Nodup := by
  have h := congrArg Prod.snd (mainAggregate_sp_pa docs)
  rw [show ((mainAggregate docs).2.1, (mainAggregate docs).2.2).2
      = (mainAggregate docs).2.2 from rfl] at h
  rw [h]
  exact docsFold_parts_nodup docs ([], []) (fun _ => by simp [paParticipants, dget?]) p

lemma blockFold_g :
    ∀ (ivs : List Intervention) (pmap : List (Option String × String × String))
      (d : String) (acc : List InterInfo × GlobalMetrics × _ × _),
      (ivs.foldl (blockStep pmap d) acc).2.1.interventions
          = acc.2.1.interventions + ivs.length ∧
        (ivs.foldl (blockStep pmap d) acc).2.1.debates_info = acc.2.1.debates_info ∧
        (ivs.foldl (blockStep pmap d) acc).1.length = acc.1.length + ivs.length
  | [], _, _, _ => ⟨rfl, rfl, rfl⟩
  | iv :: ivs, pmap, d, acc => by
    rw [List.foldl_cons]
    have ih := blockFold_g ivs pmap d (blockStep pmap d acc iv)
    have h1 : (blockStep pmap d acc iv).2.1.interventions
        = acc.2.1.interventions + 1 := rfl
    have h2 : (blockStep pmap d acc iv).2.1.debates_info = acc.2.1.debates_info := rfl
    have h3 : (blockStep pmap d acc iv).1.length = acc.1.length + 1 := by
      simp [blockStep]
    refine ⟨?_, ?_, ?_⟩
    · rw [ih.1, h1, List.length_cons]
      omega
    · rw [ih.2.1, h2]
    · rw [ih.2.2, h3, List.length_cons]
      omega

lemma process_block_g (b : BlockNode)
    (pmap : List (Option String × String × String)) (g : GlobalMetrics)
    (S : List (String × SpeakerMetrics)) (P : List (String × PartyMetrics)) (d : String) :
    (process_block b pmap g S P d).2.1.interventions
        = g.interventions + (b.interventions.getD []).length ∧
      (process_block b pmap g S P d).2.1.debates_info = g.debates_info ∧
      (process_block b pmap g S P d).1.length = (b.interventions.getD []).length := by
  cases hb : b.interventions with
  | none =>
    simp [process_block, hb]
  | some ivs =>
    simp only [process_block, hb, Option.getD_some]
    have h := blockFold_g ivs pmap d ([], g, S, P)
    refine ⟨h.1, h.2.1, ?_⟩
    rw [h.2.2]
    simp

lemma xmlFold_g :
    ∀ (bs : List BlockNode) (pmap : List (Option String × String × String))
      (d : String) (acc : List InterInfo × GlobalMetrics × _ × _),
      (bs.foldl (xmlStep pmap d) acc).2.1.interventions
          = acc.2.1.interventions
            + (bs.map (fun b => (b.interventions.getD []).length)).sum ∧
        (bs.foldl (xmlStep pmap d) acc).2.1.debates_info = acc.2.1.debates_info ∧
        (bs.foldl (xmlStep pmap d) acc).1.length
          = acc.1.length + (bs.map (fun b => (b.interventions.getD []).length)).sum
  | [], _, _, _ => ⟨rfl, rfl, rfl⟩
  | b :: bs, pmap, d, acc => by
    rw [List.foldl_cons]
    have ih := xmlFold_g bs pmap d (xmlStep pmap d acc b)
    have hblk := process_block_g b pmap acc.2.1 acc.2.2.1 acc.2.2.2 d
    have hstep1 : (xmlStep pmap d acc b).2.1.interventions
        = acc.2.1.interventions + (b.interventions.getD []).length := hblk.1
    have hstep2 : (xmlStep pmap d acc b).2.1.debates_info = acc.2.1.debates_info :=
      hblk.2.1
    have hstep3 : (xmlStep pmap d acc b).1.length
        = acc.1.length + (b.interventions.getD []).length := by
      rw [show (xmlStep pmap d acc b).1
          = acc.1 ++ (process_block b pmap acc.2.1 acc.2.2.1 acc.2.2.2 d).1 from rfl]
      rw [List.length_append, hblk.2.2]
    refine ⟨?_, ?_, ?_⟩
    · rw [ih.1, hstep1, List.map_cons, List.sum_cons]
      omega
    · rw [ih.2.1, hstep2]
    · rw [ih.2.2, hstep3, List.map_cons, List.sum_cons]
      omega

/-- The accumulator with which `process_xml` starts its block fold. -/
def xmlAcc (g : GlobalMetrics) (n : Nat) (S : List (String × SpeakerMetrics))
    (P : List (String × PartyMetrics)) :
    List InterInfo × GlobalMetrics ×
      List (String × SpeakerMetrics) × List (String × PartyMetrics) :=
  ([], { g with debates := g.debates + 1, blocks := g.blocks + n }, S, P)

lemma process_xml_inter (d : Debate) (path : String) (g : GlobalMetrics)
    (S : List (String × SpeakerMetrics)) (P : List (String × PartyMetrics)) :
    (process_xml d path g S P).2.1.interventions = g.interventions + numIvs d :=
  (xmlFold_g d.blocks (parse_participants d.participants) (d.date.getD path)
    (xmlAcc g d.blocks.length S P)).1

lemma process_xml_dinfo (d : Debate) (path : String) (g : GlobalMetrics)
    (S : List (String × SpeakerMetrics)) (P : List (String × PartyMetrics)) :
    (process_xml d path g S P).2.1.debates_info
      = dset (d.date.getD path)
          (debateInfoOf
            ((d.blocks.foldl
              (xmlStep (parse_participants d.participants) (d.date.getD path))
              (xmlAcc g d.blocks.length S P)).1))
          g.debates_info := by
  have h := (xmlFold_g d.blocks (parse_participants d.participants) (d.date.getD path)
    (xmlAcc g d.blocks.length S P)).2.1
  rw [show (process_xml d path g S P).2.1.debates_info
      = dset (d.date.getD path)
          (debateInfoOf
            ((d.blocks.foldl
              (xmlStep (parse_participants d.participants) (d.date.getD path))
              (xmlAcc g d.blocks.length S P)).1))
          ((d.blocks.foldl
            (xmlStep (parse_participants d.participants) (d.date.getD path))
            (xmlAcc g d.blocks.length S P)).2.1.debates_info)
      from rfl]
  rw [h]
  rfl

lemma process_xml_dinfo_inter (d : Debate) (path : String) (g : GlobalMetrics)
    (S : List (String × SpeakerMetrics)) (P : List (String × PartyMetrics)) :
    (debateInfoOf
        ((d.blocks.foldl
          (xmlStep (parse_participants d.participants) (d.date.getD path))
          (xmlAcc g d.blocks.length S P)).1)).interventions
      = numIvs d := by
  have h := (xmlFold_g d.blocks (parse_participants d.participants) (d.date.getD path)
    (xmlAcc g d.blocks.length S P)).2.2
  rw [show (debateInfoOf
      ((d.blocks.foldl
        (xmlStep (parse_participants d.participants) (d.date.getD path))
        (xmlAcc g d.blocks.length S P)).1)).interventions
    = (d.blocks.foldl
        (xmlStep (parse_participants d.participants) (d.date.getD path))
        (xmlAcc g d.blocks.length S P)).1.length from rfl]
  rw [h]
  simp [xmlAcc, numIvs]

lemma docsFold_global :
    ∀ (docs : List (Debate × String)) (acc : GlobalMetrics × _ × _),
      (docs.map debateIdOf).Nodup →
      (∀ doc ∈ docs, dget? (debateIdOf doc) acc.1.debates_info = none) →
      (acc.1.debates_info.map (fun e => e.2.interventions)).sum = acc.1.interventions →
      ((docs.foldl mainStep acc).1.debates_info.map (fun e => e.2.interventions)).sum
        = (docs.foldl mainStep acc).1.interventions
  | [], _, _, _, hsum => hsum
  | doc :: docs, acc, hnd, hfresh, hsum => by
    rw [List.foldl_cons]
    have hfresh0 : dget? (debateIdOf doc) acc.1.debates_info = none :=
      hfresh doc (List.mem_cons_self doc docs)
    have hdi : (mainStep acc doc).1.debates_info
        = dset (debateIdOf doc)
            (debateInfoOf
              ((doc.1.blocks.foldl
                (xmlStep (parse_participants doc.1.participants) (debateIdOf doc))
                (xmlAcc acc.1 doc.1.blocks.length acc.2.1 acc.2.2)).1))
            acc.1.debates_info :=
      process_xml_dinfo doc.1 doc.2 acc.1 acc.2.1 acc.2.2
    apply docsFold_global docs (mainStep acc doc)
    · exact (List.nodup_cons.mp hnd).2
    · intro doc_ hdoc_
      have hne : debateIdOf doc_ ≠ debateIdOf doc := by
        intro he
        exact (List.nodup_cons.mp hnd).1 (he ▸ List.mem_map_of_mem debateIdOf hdoc_)
      rw [hdi, dget?_dset_ne _ _ _ hne]
      exact hfresh doc_ (List.mem_cons_of_mem doc hdoc_)
    · rw [hdi, dset_of_dget?_none _ _ _ hfresh0]
      rw [List.map_append, List.sum_append]
      rw [show (mainStep acc doc).1.interventions
          = acc.1.interventions + numIvs doc.1 from
        process_xml_inter doc.1 doc.2 acc.1 acc.2.1 acc.2.2]
      rw [hsum]
      simp only [List.map_cons, List.map_nil, List.sum_cons, List.sum_nil]
      have hdinfo : (debateInfoOf
          ((doc.1.blocks.foldl
            (xmlStep (parse_participants doc.1.participants) (debateIdOf doc))
            (xmlAcc acc.1 doc.1.blocks.length acc.2.1 acc.2.2)).1)).interventions
          = numIvs doc.1 :=
        process_xml_dinfo_inter doc.1 doc.2 acc.1 acc.2.1 acc.2.2
      rw [hdinfo]
      omega

lemma final_global (docs : List (Debate × String))
    (hnd : (docs.map debateIdOf).Nodup) :
    ((mainAggregate docs).1.debates_info.map (fun e => e.2.interventions)).sum
      = (mainAggregate docs).1.interventions :=
  docsFold_global docs (initGlobalMetrics, [], []) hnd (fun _ _ => rfl) rfl

lemma sum_map_add {α : Type} (l : List α) (f g : α → Nat) :
    (l.map (fun a => f a + g a)).sum = (l.map f).sum + (l.map g).sum := by
  induction l with
  | nil => rfl
  | cons x xs ih =>
    simp only [List.map_cons, List.sum_cons, ih]
    omega

lemma sum_map_indicator (a : String) :
    ∀ l : List String,
      (l.map (fun s => if (a == s) = true then 1 else 0)).sum = l.count a
  | [] => rfl
  | x :: xs => by
    simp only [List.map_cons, List.sum_cons, List.count_cons, sum_map_indicator a xs]
    by_cases h : a = x
    · rw [if_pos (beq_iff_eq.mpr h), if_pos (beq_iff_eq.mpr h.symm)]
      omega
    · rw [if_neg (fun hb => h (beq_iff_eq.mp hb)),
        if_neg (fun hb => h (beq_iff_eq.mp hb).symm)]
      omega

/-- Partition argument: when every key pair with party `p` has its speaker
in `Pl`, and every pair whose speaker is listed in `Pl` carries party `p`,
summing the per-speaker counts over `Pl` counts exactly the pairs with
party `p`. -/
lemma count_partition :
    ∀ (K : List (String × String)) (p : String) (Pl : List String), Pl.Nodup →
      (∀ x ∈ K, x.2 = p → x.1 ∈ Pl) →
      (∀ s ∈ Pl, ∀ x ∈ K, x.1 = s → x.2 = p) →
      (Pl.map (fun s => K.countP (fun k => k.1 == s))).sum
        = K.countP (fun k => k.2 == p)
  | [], _, Pl, _, _, _ => by simp
  | x :: K, p, Pl, hnd, h1, h2 => by
    have ih := count_partition K p Pl hnd
      (fun y hy => h1 y (List.mem_cons_of_mem _ hy))
      (fun s hs y hy => h2 s hs y (List.mem_cons_of_mem _ hy))
    simp only [List.countP_cons]
    rw [show Pl.map (fun s => K.countP (fun k => k.1 == s)
          + if (x.1 == s) = true then 1 else 0)
        = Pl.map (fun s => (fun s => K.countP (fun k => k.1 == s)) s
          + (fun s => if (x.1 == s) = true then 1 else 0) s) from rfl]
    rw [sum_map_add, ih, sum_map_indicator]
    by_cases hp : x.2 = p
    · have hx1 : x.1 ∈ Pl := h1 x (List.mem_cons_self x K) hp
      rw [List.count_eq_one_of_mem hnd hx1, if_pos (beq_iff_eq.mpr hp)]
    · have hx1 : x.1 ∉ Pl := fun hmem =>
        hp (h2 x.1 hmem x (List.mem_cons_self x K) rfl)
      rw [List.count_eq_zero_of_not_mem hx1,
        if_neg (fun hb => hp (beq_iff_eq.mp hb))]

/-- **C3 (amended).** After aggregating a set of documents in which every
speaker key appears with a single party key and the debate ids are
pairwise distinct, the totals are consistent across scopes: for every
party accumulator the sum of the intervention counts of its participant
speakers equals the party's intervention count, and the per-debate
intervention counts stored in `debates_info` sum to the global
intervention total. -/
theorem aggregation_totals_consistent (docs : List (Debate × String))
    (hfun : ∀ x ∈ allKeys docs, ∀ y ∈ allKeys docs, x.1 = y.1 → x.2 = y.2)
    (hids : (docs.map debateIdOf).Nodup) :
    (∀ p pm, dget? p (mainAggregate docs).2.2 = some pm →
      (pm.participants.map (fun s => spInterCnt s (mainAggregate docs).2.1)).sum
        = pm.interventions) ∧
    ((mainAggregate docs).1.debates_info.map (fun e => e.2.interventions)).sum
      = (mainAggregate docs).1.interventions := by
  constructor
  · intro p pm hpm
    have hparts : paParticipants p (mainAggregate docs).2.2 = pm.participants := by
      unfold paParticipants
      rw [hpm]
      rfl
    have hcnt : paInterCnt p (mainAggregate docs).2.2 = pm.interventions := by
      unfold paInterCnt
      rw [hpm]
      rfl
    have hmem : ∀ s, s ∈ pm.participants ↔ (s, p) ∈ allKeys docs := fun s => by
      rw [← hparts]
      exact final_parts_mem docs p s
    have hnd : pm.participants.Nodup := hparts ▸ final_parts_nodup docs p
    rw [List.map_congr_left (fun s _ => final_spInterCnt docs s)]
    rw [count_partition (allKeys docs) p pm.participants hnd
      (fun x hx hxp => (hmem x.1).mpr (by rw [← hxp, Prod.mk.eta]; exact hx))
      (fun s hs x hx hxs => hfun x hx (s, p) ((hmem s).mp hs) hxs)]
    rw [← final_paInterCnt docs p, hcnt]
  · exact final_global docs hids

/-- A document in which the same speaker name `S` appears as two
participants with different parties `A` and `B`; each of the two
interventions carries a sentences node, as the assembler always emits
one. -/
def mixedPartyDoc : Debate :=
  { date := some "2019-04-22",
    participants := [⟨some "p0", some "S", some "A"⟩, ⟨some "p1", some "S", some "B"⟩],
    blocks := [⟨some [⟨some "i000", some "p0", some [⟨some "s0", some "Hello", none⟩],
                  none, none, none⟩,
                ⟨some "i001", some "p1", some [⟨some "s0", some "World", none⟩],
                  none, none, none⟩]⟩] }

/-- **C3 counterexample.** With one speaker aggregated under two party
keys, summing the intervention counts of party `A`'s participant speakers
gives 2 while party `A`'s own intervention count is 1 — the claimed
equality fails on this set of documents. -/
theorem party_speaker_sum_counterexample :
    ((paParticipants "A" (mainAggregate [(mixedPartyDoc, "f.xml")]).2.2).map
        (fun s => spInterCnt s (mainAggregate [(mixedPartyDoc, "f.xml")]).2.1)).sum = 2 ∧
      paInterCnt "A" (mainAggregate [(mixedPartyDoc, "f.xml")]).2.2 = 1 ∧
      ¬ ((paParticipants "A" (mainAggregate [(mixedPartyDoc, "f.xml")]).2.2).map
          (fun s => spInterCnt s (mainAggregate [(mixedPartyDoc, "f.xml")]).2.1)).sum
        = paInterCnt "A" (mainAggregate [(mixedPartyDoc, "f.xml")]).2.2 := by
  refine ⟨by decide, by decide, by decide⟩

/-- A well-behaved document: one speaker, one party, two interventions. -/
def consistentDoc : Debate :=
  { date := some "2019-04-22",
    participants := [⟨some "p0", some "Ana", some "A"⟩],
    blocks := [⟨some [⟨some "i000", some "p0", some [⟨some "s0", some "Hello", none⟩],
                  none, none, none⟩,
                ⟨some "i001", some "p0", some [⟨some "s0", some "World", none⟩],
                  none, none, none⟩]⟩] }

/-- Witness for the amended C3 on a concrete single-party run. -/
theorem aggregation_totals_consistent_witness :
    ((∀ x ∈ allKeys [(consistentDoc, "f.xml")], ∀ y ∈ allKeys [(consistentDoc, "f.xml")],
        x.1 = y.1 → x.2 = y.2) ∧
      (([(consistentDoc, "f.xml")].map debateIdOf).Nodup)) ∧
    ((∀ p pm, dget? p (mainAggregate [(consistentDoc, "f.xml")]).2.2 = some pm →
      (pm.participants.map
        (fun s => spInterCnt s (mainAggregate [(consistentDoc, "f.xml")]).2.1)).sum
        = pm.interventions) ∧
    ((mainAggregate [(consistentDoc, "f.xml")]).1.debates_info.map
        (fun e => e.2.interventions)).sum
      = (mainAggregate [(consistentDoc, "f.xml")]).1.interventions) :=
  ⟨⟨by decide, by decide⟩,
    aggregation_totals_consistent [(consistentDoc, "f.xml")] (by decide) (by decide)⟩

end DebatES
